import Mathlib

/-!
Verification of the consistency-maintenance protocol of the Users/Tasks
service (Express routers over Mongoose, files `src/unnamed/part_000` for the
user routes and `src/unnamed/part_001` for the task routes, schemas in
`src/models/user.js` and `src/models/task.js`).

The routers are shallowly embedded as pure functions on an explicit database
state.  Each mutating route opens a transaction, performs its writes through
the session and either commits or aborts; we model the transaction as a
buffered copy of the database (`Txn`) that becomes the new state only on
commit, and aborted requests return the original state.  Write failures
(the store refusing a write mid-transaction) are modelled by an optional
`failAt` index: the n-th write of the request raises `writeFailed`, which the
route's catch-block turns into an aborted transaction, exactly as the JS
`catch` does.  The reactive duplicate-key error a unique index can raise at
write time (Mongo error 11000) is modelled by a `dupKeyAtWrite` flag on the
two routes that write the unique `email` field.

Document identities are Mongo ObjectIds.  `_id` fields of both collections
are default ObjectIds; querying them with a string that does not parse as an
ObjectId makes Mongoose raise a CastError when the query executes, which the
routers catch (`err.name === 'CastError'`).  We model ObjectId validity as
the 24-character-hex check (`isValidId`); the alternative 12-byte-string form
of an ObjectId is irrelevant to the properties proved here and omitted.

The `lowercase`/`trim` setters on `email` and Mongoose's `toBoolean`-style
string coercions are orthogonal to every property below and are collapsed:
emails are compared verbatim, the `completed` payload field is an
`Option Bool` (absent / boolean).
-/

/-- A string is a well-formed ObjectId when it is 24 hex characters, the
shape `mongoose` accepts when casting a string to an `_id`. -/
def isValidId (s : String) : Bool :=
  s.length == 24 && s.toList.all (fun c => c.isDigit || ('a' ≤ c && c ≤ 'f'))

/-- A stored User document (`src/models/user.js`): name, unique email, the
pending task ids and the creation date.  `id` is the generated `_id`. -/
structure UserDoc where
  id : String
  name : String
  email : String
  pendingTasks : List String
  dateCreated : Nat
deriving Repr, DecidableEq

/-- A stored Task document (`src/models/task.js`). -/
structure TaskDoc where
  id : String
  name : String
  description : String
  deadline : Nat
  completed : Bool
  assignedUser : String
  assignedUserName : String
  dateCreated : Nat
deriving Repr, DecidableEq

/-- The two collections of the document store. -/
structure DB where
  users : List UserDoc
  tasks : List TaskDoc
deriving Repr, DecidableEq

/-- Response envelope surfaced by every route: HTTP status plus message. -/
structure Resp where
  status : Nat
  message : String
deriving Repr, DecidableEq

/-- Errors the store can raise inside a route body: a CastError from
querying an `_id` with a malformed string, the duplicate-key error of the
unique email index, and a generic refused write. -/
inductive StoreErr where
  | castError
  | duplicateKey
  | writeFailed
deriving Repr, DecidableEq

/-- An open transaction: the buffered state of the database plus the number
of writes performed so far (used to address the injected write failure). -/
structure Txn where
  cur : DB
  writes : Nat
deriving Repr, DecidableEq

/-- Perform one write inside the transaction.  If the fault schedule says
this write fails, raise `writeFailed` instead of applying it. -/
def applyWrite (failAt : Option Nat) (f : DB → DB) (t : Txn) : Except StoreErr Txn :=
  if failAt = some t.writes then .error .writeFailed
  else .ok ⟨f t.cur, t.writes + 1⟩

/-- `User.findOne` driven by id equality on the stored documents. -/
def findUser (db : DB) (uid : String) : Option UserDoc :=
  db.users.find? (fun u => u.id == uid)

/-- `Task.findOne` driven by id equality on the stored documents. -/
def findTask (db : DB) (tid : String) : Option TaskDoc :=
  db.tasks.find? (fun t => t.id == tid)

/-- `User.findById id`: casting a malformed string to an ObjectId raises a
CastError; otherwise a plain lookup. -/
def findUserById (db : DB) (uid : String) : Except StoreErr (Option UserDoc) :=
  if isValidId uid then .ok (findUser db uid) else .error .castError

/-- `Task.findById id`, with the same casting behaviour. -/
def findTaskById (db : DB) (tid : String) : Except StoreErr (Option TaskDoc) :=
  if isValidId tid then .ok (findTask db tid) else .error .castError

/-- `Task.find({ _id: { $in: ids }, completed: false }).distinct('_id')`:
every member of the `$in` array is cast to an ObjectId (CastError on a
malformed member), then the ids of the existing not-completed tasks among
them are returned. -/
def validTaskIds (db : DB) (ids : List String) : Except StoreErr (List String) :=
  if ids.all (fun s => isValidId s) then
    .ok ((db.tasks.filter (fun t => ids.contains t.id && !t.completed)).map (fun t => t.id))
  else .error .castError

/-- `$addToSet`: append the value only when it is not already present. -/
def addToSet (l : List String) (x : String) : List String :=
  if l.contains x then l else l ++ [x]

/-- The reference resolver shared by the two task routes: an empty candidate
resolves to unassigned; a non-empty candidate is looked up (CastError when
malformed), resolving to (id, current name) when found and silently
downgrading to unassigned when absent. -/
def resolveAssignee (db : DB) (a0 : String) : Except StoreErr (String × String) :=
  if a0 == "" then .ok ("", "unassigned")
  else
    match findUserById db a0 with
    | .error e => .error e
    | .ok (some u) => .ok (a0, u.name)
    | .ok none => .ok ("", "unassigned")

/-- The membership filter shared by the two user routes: an empty request
list skips the query entirely, otherwise the valid not-completed subset is
computed (CastError on a malformed member). -/
def filterPendingTasks (db : DB) (requested : List String) : Except StoreErr (List String) :=
  if requested.isEmpty then .ok [] else validTaskIds db requested

/-- JS truthiness of an optional string field (`!name` is true for a missing
field and for the empty string). -/
def strPresent (o : Option String) : Bool :=
  o.getD "" != ""

/-- JS truthiness of the optional numeric `deadline` field (`!deadline` is
true for a missing field and for the zero timestamp). -/
def deadlinePresent (o : Option Nat) : Bool :=
  o.getD 0 != 0

/-- The generic 500 envelope produced by the routes' final catch branch. -/
def serverError : Resp :=
  ⟨500, "Server error"⟩

/-! ## Task routes (`src/unnamed/part_001`) -/

/-- Request body of `POST /api/tasks`.  `assignedUserName` is destructured
by the route but never used (the cache is recomputed). -/
structure CreateTaskReq where
  name : Option String
  description : Option String
  deadline : Option Nat
  assignedUser : Option String
  assignedUserName : Option String
  completed : Option Bool
deriving Repr, DecidableEq

/-- Body of `POST /api/tasks` between `startTransaction` and
`commitTransaction`; errors escape to the catch wrapper. -/
def createTaskBody (db : DB) (req : CreateTaskReq) (now : Nat) (newId : String)
    (failAt : Option Nat) : Except StoreErr (DB × Resp) := do
  if !(strPresent req.name && deadlinePresent req.deadline) then
    return (db, ⟨400, "Missing required fields"⟩)
  let completedBool := req.completed.getD false
  let a0 := req.assignedUser.getD ""
  let resolved ← resolveAssignee db a0
  let assignedUserId := resolved.1
  let t0 : Txn := ⟨db, 0⟩
  let newTask : TaskDoc :=
    ⟨newId, req.name.getD "", req.description.getD "", req.deadline.getD 0,
      completedBool, assignedUserId,
      if assignedUserId != "" then resolved.2 else "unassigned", now⟩
  let t1 ← applyWrite failAt (fun d => { d with tasks := d.tasks ++ [newTask] }) t0
  let t2 ←
    if assignedUserId != "" && !completedBool then
      applyWrite failAt (fun d =>
        { d with users := d.users.map (fun u =>
            if u.id == assignedUserId then
              { u with pendingTasks := addToSet u.pendingTasks newId }
            else u) }) t1
    else pure t1
  return (t2.cur, ⟨201, "Task created"⟩)

/-- `POST /api/tasks`: run the body; any store error aborts the transaction
and the catch branch answers 500 (this route's catch has no CastError
case). -/
def createTask (db : DB) (req : CreateTaskReq) (now : Nat) (newId : String)
    (failAt : Option Nat) : DB × Resp :=
  match createTaskBody db req now newId failAt with
  | .ok r => r
  | .error _ => (db, serverError)

/-- Request body of `PUT /api/tasks/:id`.  `dateCreated` may be supplied by
the caller but the route never reads it; `assignedUserName` is ignored. -/
structure ReplaceTaskReq where
  name : Option String
  description : Option String
  deadline : Option Nat
  assignedUser : Option String
  assignedUserName : Option String
  completed : Option Bool
  dateCreated : Option Nat
deriving Repr, DecidableEq

/-- Body of `PUT /api/tasks/:id`. -/
def replaceTaskBody (db : DB) (tid : String) (req : ReplaceTaskReq)
    (failAt : Option Nat) : Except StoreErr (DB × Resp) := do
  let curOpt ← findTaskById db tid
  match curOpt with
  | none => return (db, ⟨404, "Task not found"⟩)
  | some cur => do
    if !(strPresent req.name && deadlinePresent req.deadline && req.completed.isSome) then
      return (db, ⟨400, "Missing required fields"⟩)
    let completedBool := req.completed.getD false
    let a0 := req.assignedUser.getD ""
    let resolved ← resolveAssignee db a0
    let newAssignee := resolved.1
    let prevAssignee := cur.assignedUser
    let t0 : Txn := ⟨db, 0⟩
    let t1 ← applyWrite failAt (fun d =>
      { d with tasks := d.tasks.map (fun t =>
          if t.id == tid then
            ⟨t.id, req.name.getD "", req.description.getD "", req.deadline.getD 0,
              completedBool, newAssignee,
              if newAssignee != "" then resolved.2 else "unassigned",
              cur.dateCreated⟩
          else t) }) t0
    let t2 ←
      if prevAssignee != "" && prevAssignee != newAssignee then
        applyWrite failAt (fun d =>
          { d with users := d.users.map (fun u =>
              if u.id == prevAssignee then
                { u with pendingTasks := u.pendingTasks.filter (fun x => x != tid) }
              else u) }) t1
      else pure t1
    let t3 ←
      if newAssignee != "" then
        if completedBool then
          applyWrite failAt (fun d =>
            { d with users := d.users.map (fun u =>
                if u.id == newAssignee then
                  { u with pendingTasks := u.pendingTasks.filter (fun x => x != tid) }
                else u) }) t2
        else
          applyWrite failAt (fun d =>
            { d with users := d.users.map (fun u =>
                if u.id == newAssignee then
                  { u with pendingTasks := addToSet u.pendingTasks tid }
                else u) }) t2
      else pure t2
    return (t3.cur, ⟨200, "Task updated"⟩)

/-- Catch branch of `PUT /api/tasks/:id`: CastError answers 404, everything
else 500. -/
def replaceTaskCatch (e : StoreErr) : Resp :=
  match e with
  | .castError => ⟨404, "Task not found"⟩
  | _ => serverError

/-- `PUT /api/tasks/:id`. -/
def replaceTask (db : DB) (tid : String) (req : ReplaceTaskReq)
    (failAt : Option Nat) : DB × Resp :=
  match replaceTaskBody db tid req failAt with
  | .ok r => r
  | .error e => (db, replaceTaskCatch e)

/-- Body of `DELETE /api/tasks/:id`. -/
def deleteTaskBody (db : DB) (tid : String) (failAt : Option Nat) :
    Except StoreErr (DB × Resp) := do
  let tOpt ← findTaskById db tid
  match tOpt with
  | none => return (db, ⟨404, "Task not found"⟩)
  | some t => do
    let t0 : Txn := ⟨db, 0⟩
    let t1 ←
      if t.assignedUser != "" then
        applyWrite failAt (fun d =>
          { d with users := d.users.map (fun u =>
              if u.id == t.assignedUser then
                { u with pendingTasks := u.pendingTasks.filter (fun x => x != t.id) }
              else u) }) t0
      else pure t0
    let t2 ← applyWrite failAt (fun d =>
      { d with tasks := d.tasks.filter (fun x => !(x.id == t.id)) }) t1
    return (t2.cur, ⟨204, ""⟩)

/-- `DELETE /api/tasks/:id`: CastError answers 404, everything else 500. -/
def deleteTask (db : DB) (tid : String) (failAt : Option Nat) : DB × Resp :=
  match deleteTaskBody db tid failAt with
  | .ok r => r
  | .error e => (db, replaceTaskCatch e)

/-- `GET /api/tasks/:id` (no state change): a malformed id raises a
CastError which the catch branch maps to 404. -/
def getTaskById (db : DB) (tid : String) : Resp :=
  match findTaskById db tid with
  | .error .castError => ⟨404, "Task not found"⟩
  | .error _ => serverError
  | .ok none => ⟨404, "Task not found"⟩
  | .ok (some _) => ⟨200, "OK"⟩

/-- `GET /api/tasks` row listing.  The parsed `where` filter is abstracted
as a predicate; `skip`/`limit` are the numeric query params (`none` when
absent or non-numeric, in which case the code falls back to 0 resp. 100).
`sort`/`select`/`count` are orthogonal to the properties proved here. -/
def getTasksList (db : DB) (wh : TaskDoc → Bool) (skip : Option Nat)
    (limit : Option Nat) : List TaskDoc :=
  let s := skip.getD 0
  let l := limit.getD 100
  let rows := db.tasks.filter wh
  let rows := if s != 0 then rows.drop s else rows
  if l != 0 then rows.take l else rows

/-! ## User routes (`src/unnamed/part_000`) -/

/-- Request body of `POST /api/users`.  A non-array `pendingTasks` is
`none`; a client-supplied `dateCreated` is never read by the route. -/
structure CreateUserReq where
  name : Option String
  email : Option String
  pendingTasks : Option (List String)
  dateCreated : Option Nat
deriving Repr, DecidableEq

/-- Body of `POST /api/users`. -/
def createUserBody (db : DB) (req : CreateUserReq) (now : Nat) (newId : String)
    (failAt : Option Nat) (dupKeyAtWrite : Bool) : Except StoreErr (DB × Resp) := do
  if !(strPresent req.name && strPresent req.email) then
    return (db, ⟨400, "Missing required fields"⟩)
  let name := req.name.getD ""
  let email := req.email.getD ""
  if (db.users.find? (fun u => u.email == email)).isSome then
    return (db, ⟨400, "Email already exists"⟩)
  let requested := req.pendingTasks.getD []
  let t0 : Txn := ⟨db, 0⟩
  -- `User.create` writes the unique email; a concurrent committed writer can
  -- make the unique index raise the duplicate-key error here.
  let t1 ←
    if dupKeyAtWrite then throw .duplicateKey
    else applyWrite failAt (fun d =>
      { d with users := d.users ++ [⟨newId, name, email, requested, now⟩] }) t0
  let validTasks ← filterPendingTasks t1.cur requested
  if !validTasks.isEmpty then
    let t2 ← applyWrite failAt (fun d =>
      { d with tasks := d.tasks.map (fun t =>
          if validTasks.contains t.id then
            { t with assignedUser := newId, assignedUserName := name }
          else t) }) t1
    let t3 ← applyWrite failAt (fun d =>
      { d with users := d.users.map (fun u =>
          if !(u.id == newId) && u.pendingTasks.any (fun x => validTasks.contains x) then
            { u with pendingTasks := u.pendingTasks.filter (fun x => !validTasks.contains x) }
          else u) }) t2
    let t4 ← applyWrite failAt (fun d =>
      { d with users := d.users.map (fun u =>
          if u.id == newId then { u with pendingTasks := validTasks } else u) }) t3
    return (t4.cur, ⟨201, "User created"⟩)
  else
    let t2 ← applyWrite failAt (fun d =>
      { d with users := d.users.map (fun u =>
          if u.id == newId then { u with pendingTasks := [] } else u) }) t1
    return (t2.cur, ⟨201, "User created"⟩)

/-- `POST /api/users`: the catch branch of this route answers 500 for every
escaped error (it has no CastError and no duplicate-key case). -/
def createUser (db : DB) (req : CreateUserReq) (now : Nat) (newId : String)
    (failAt : Option Nat) (dupKeyAtWrite : Bool) : DB × Resp :=
  match createUserBody db req now newId failAt dupKeyAtWrite with
  | .ok r => r
  | .error _ => (db, serverError)

/-- Request body of `PUT /api/users/:id`; `pendingTasks` must be an array
(`none` models a missing or non-array field), and a client-supplied
`dateCreated` is never read. -/
structure ReplaceUserReq where
  name : Option String
  email : Option String
  pendingTasks : Option (List String)
  dateCreated : Option Nat
deriving Repr, DecidableEq

/-- Body of `PUT /api/users/:id`. -/
def replaceUserBody (db : DB) (uid : String) (req : ReplaceUserReq)
    (failAt : Option Nat) (dupKeyAtWrite : Bool) : Except StoreErr (DB × Resp) := do
  let userOpt ← findUserById db uid
  match userOpt with
  | none => return (db, ⟨404, "User not found"⟩)
  | some user => do
    if !(strPresent req.name && strPresent req.email && req.pendingTasks.isSome) then
      return (db, ⟨400, "Missing required fields"⟩)
    let name := req.name.getD ""
    let email := req.email.getD ""
    if (db.users.find? (fun u => u.email == email && !(u.id == uid))).isSome then
      return (db, ⟨400, "Email already exists"⟩)
    let originalDateCreated := user.dateCreated
    let requested := req.pendingTasks.getD []
    let t0 : Txn := ⟨db, 0⟩
    -- 1) unassign the current not-completed tasks of this user
    let t1 ← applyWrite failAt (fun d =>
      { d with tasks := d.tasks.map (fun t =>
          if t.assignedUser == uid && !t.completed then
            { t with assignedUser := "", assignedUserName := "unassigned" }
          else t) }) t0
    -- 2) keep only the valid not-completed requested ids
    let validTasks ← filterPendingTasks t1.cur requested
    -- 3)-4) assign those tasks here, pull them from every other user
    let t3 ←
      if !validTasks.isEmpty then do
        let t2 ← applyWrite failAt (fun d =>
          { d with tasks := d.tasks.map (fun t =>
              if validTasks.contains t.id then
                { t with assignedUser := uid, assignedUserName := name }
              else t) }) t1
        applyWrite failAt (fun d =>
          { d with users := d.users.map (fun u =>
              if !(u.id == uid) && u.pendingTasks.any (fun x => validTasks.contains x) then
                { u with pendingTasks := u.pendingTasks.filter (fun x => !validTasks.contains x) }
              else u) }) t2
      else pure t1
    -- 5) overwrite the document, explicitly re-including dateCreated; the
    -- unique email index can raise the duplicate-key error reactively here.
    let t4 ←
      if dupKeyAtWrite then throw .duplicateKey
      else applyWrite failAt (fun d =>
        { d with users := d.users.map (fun u =>
            if u.id == uid then ⟨uid, name, email, validTasks, originalDateCreated⟩
            else u) }) t3
    return (t4.cur, ⟨200, "User updated"⟩)

/-- Catch branch of `PUT /api/users/:id`: CastError answers 404, the
duplicate-key error answers the same 400 as the proactive pre-check,
everything else 500. -/
def replaceUserCatch (e : StoreErr) : Resp :=
  match e with
  | .castError => ⟨404, "User not found"⟩
  | .duplicateKey => ⟨400, "Email already exists"⟩
  | .writeFailed => serverError

/-- `PUT /api/users/:id`. -/
def replaceUser (db : DB) (uid : String) (req : ReplaceUserReq)
    (failAt : Option Nat) (dupKeyAtWrite : Bool) : DB × Resp :=
  match replaceUserBody db uid req failAt dupKeyAtWrite with
  | .ok r => r
  | .error e => (db, replaceUserCatch e)

/-- Body of `DELETE /api/users/:id`. -/
def deleteUserBody (db : DB) (uid : String) (failAt : Option Nat) :
    Except StoreErr (DB × Resp) := do
  let uOpt ← findUserById db uid
  match uOpt with
  | none => return (db, ⟨404, "User not found"⟩)
  | some u => do
    let t0 : Txn := ⟨db, 0⟩
    -- unassign every not-completed task of this user …
    let t1 ← applyWrite failAt (fun d =>
      { d with tasks := d.tasks.map (fun t =>
          if t.assignedUser == u.id && !t.completed then
            { t with assignedUser := "", assignedUserName := "unassigned" }
          else t) }) t0
    -- … and delete the user document
    let t2 ← applyWrite failAt (fun d =>
      { d with users := d.users.filter (fun x => !(x.id == u.id)) }) t1
    return (t2.cur, ⟨204, ""⟩)

/-- Catch branch of `DELETE /api/users/:id` (and of the user `GET` by id):
CastError answers 404, everything else 500. -/
def deleteUserCatch (e : StoreErr) : Resp :=
  match e with
  | .castError => ⟨404, "User not found"⟩
  | _ => serverError

/-- `DELETE /api/users/:id`. -/
def deleteUser (db : DB) (uid : String) (failAt : Option Nat) : DB × Resp :=
  match deleteUserBody db uid failAt with
  | .ok r => r
  | .error e => (db, deleteUserCatch e)

/-- `GET /api/users/:id` (no state change). -/
def getUserById (db : DB) (uid : String) : Resp :=
  match findUserById db uid with
  | .error .castError => ⟨404, "User not found"⟩
  | .error _ => serverError
  | .ok none => ⟨404, "User not found"⟩
  | .ok (some _) => ⟨200, "OK"⟩

/-- `GET /api/users` row listing; unlike the task listing the limit falls
back to 0, i.e. no limit is applied. -/
def getUsersList (db : DB) (wh : UserDoc → Bool) (skip : Option Nat)
    (limit : Option Nat) : List UserDoc :=
  let s := skip.getD 0
  let l := limit.getD 0
  let rows := db.users.filter wh
  let rows := if s != 0 then rows.drop s else rows
  if l != 0 then rows.take l else rows

/-! ## Invariants and reachable states -/

/-- Invariant I2 of the spec: a task id sits in a user's pending set exactly
when the task is assigned to that user and not completed. -/
def I2 (db : DB) : Prop :=
  ∀ t ∈ db.tasks, ∀ u ∈ db.users,
    (t.id ∈ u.pendingTasks ↔ (t.assignedUser = u.id ∧ t.completed = false))

/-- Structural well-formedness the store guarantees: generated ids are
distinct well-formed ObjectIds in both collections. -/
def WF (db : DB) : Prop :=
  (db.users.map UserDoc.id).Nodup ∧ (db.tasks.map TaskDoc.id).Nodup ∧
  (∀ u ∈ db.users, isValidId u.id = true) ∧ (∀ t ∈ db.tasks, isValidId t.id = true)

/-- Invariant I1 restricted to not-completed tasks: such a task is either
unassigned or assigned to an existing user. -/
def I1open (db : DB) : Prop :=
  ∀ t ∈ db.tasks, t.completed = false →
    t.assignedUser = "" ∨ ∃ u ∈ db.users, u.id = t.assignedUser

/-- Every id-like string occurring anywhere in the state; a freshly
generated ObjectId differs from all of them. -/
def usedIds (db : DB) : List String :=
  db.users.map UserDoc.id ++ db.tasks.map TaskDoc.id ++
    db.tasks.map TaskDoc.assignedUser ++ (db.users.map UserDoc.pendingTasks).flatten

/-- The inductive invariant carried through every operation. -/
def StateInv (db : DB) : Prop :=
  WF db ∧ I2 db ∧ I1open db

/-- States of the model: the empty store followed by any sequence of
mutating requests, each with an arbitrary payload, an arbitrary fault
schedule, and a store-generated fresh id where one is created. -/
inductive Reachable : DB → Prop where
  | init : Reachable ⟨[], []⟩
  | stepCreateUser {db} (req : CreateUserReq) (now : Nat) (newId : String)
      (failAt : Option Nat) (dupKeyAtWrite : Bool) : Reachable db →
      isValidId newId = true → newId ∉ usedIds db →
      Reachable (createUser db req now newId failAt dupKeyAtWrite).1
  | stepReplaceUser {db} (uid : String) (req : ReplaceUserReq)
      (failAt : Option Nat) (dupKeyAtWrite : Bool) : Reachable db →
      Reachable (replaceUser db uid req failAt dupKeyAtWrite).1
  | stepDeleteUser {db} (uid : String) (failAt : Option Nat) : Reachable db →
      Reachable (deleteUser db uid failAt).1
  | stepCreateTask {db} (req : CreateTaskReq) (now : Nat) (newId : String)
      (failAt : Option Nat) : Reachable db →
      isValidId newId = true → newId ∉ usedIds db →
      Reachable (createTask db req now newId failAt).1
  | stepReplaceTask {db} (tid : String) (req : ReplaceTaskReq)
      (failAt : Option Nat) : Reachable db →
      Reachable (replaceTask db tid req failAt).1
  | stepDeleteTask {db} (tid : String) (failAt : Option Nat) : Reachable db →
      Reachable (deleteTask db tid failAt).1

/-! ## Run characterizations

Each mutating route either aborts (the returned state is the original
database) or commits, in which case the returned state is the corresponding
`…Commit` function: the sequential composition of the writes the route
issues inside its transaction. -/

theorem applyWrite_ok {f : Option Nat} {g : DB → DB} {t v : Txn}
    (h : applyWrite f g t = .ok v) : v = ⟨g t.cur, t.writes + 1⟩ := by
  unfold applyWrite at h
  split at h
  · cases h
  · cases h; rfl

/-- The committed effect of `DELETE /api/tasks/:id` on stored task `t`. -/
def deleteTaskCommit (db : DB) (t : TaskDoc) : DB :=
  ⟨if t.assignedUser != "" then
      db.users.map (fun u =>
        if u.id == t.assignedUser then
          { u with pendingTasks := u.pendingTasks.filter (fun x => x != t.id) }
        else u)
    else db.users,
   db.tasks.filter (fun x => !(x.id == t.id))⟩

theorem deleteTaskBody_ok {db : DB} {tid : String} {f : Option Nat} {db' : DB} {resp : Resp}
    (h : deleteTaskBody db tid f = .ok (db', resp)) :
    (db' = db ∧ resp = ⟨404, "Task not found"⟩) ∨
      (∃ t, findTaskById db tid = .ok (some t) ∧ db' = deleteTaskCommit db t ∧
        resp = ⟨204, ""⟩) := by
  unfold deleteTaskBody at h
  simp only [bind, Except.bind, pure, Except.pure] at h
  cases hfind : findTaskById db tid with
  | error e => rw [hfind] at h; cases h
  | ok tOpt =>
    rw [hfind] at h
    cases tOpt with
    | none => simp at h; exact Or.inl ⟨h.1.symm, h.2.symm⟩
    | some t =>
      simp only [] at h
      refine Or.inr ⟨t, rfl, ?_⟩
      split at h
      case isTrue hassigned =>
        split at h
        · cases h
        · rename_i v1 heq1
          split at h
          · cases h
          · rename_i v2 heq2
            have e1 := applyWrite_ok heq1
            have e2 := applyWrite_ok heq2
            subst e1; subst e2
            cases h
            exact ⟨by simp [deleteTaskCommit, hassigned], rfl⟩
      case isFalse hassigned =>
        split at h
        · cases h
        · rename_i v1 heq1
          have e1 := applyWrite_ok heq1
          subst e1
          cases h
          exact ⟨by simp [deleteTaskCommit, hassigned], rfl⟩

/-- The committed effect of `DELETE /api/users/:id` on stored user `u`. -/
def deleteUserCommit (db : DB) (u : UserDoc) : DB :=
  ⟨db.users.filter (fun x => !(x.id == u.id)),
   db.tasks.map (fun t =>
     if t.assignedUser == u.id && !t.completed then
       { t with assignedUser := "", assignedUserName := "unassigned" }
     else t)⟩

theorem deleteUserBody_ok {db : DB} {uid : String} {f : Option Nat} {db' : DB} {resp : Resp}
    (h : deleteUserBody db uid f = .ok (db', resp)) :
    (db' = db ∧ resp = ⟨404, "User not found"⟩) ∨
      (∃ u, findUserById db uid = .ok (some u) ∧ db' = deleteUserCommit db u ∧
        resp = ⟨204, ""⟩) := by
  unfold deleteUserBody at h
  simp only [bind, Except.bind, pure, Except.pure] at h
  cases hfind : findUserById db uid with
  | error e => rw [hfind] at h; cases h
  | ok uOpt =>
    rw [hfind] at h
    cases uOpt with
    | none => simp at h; exact Or.inl ⟨h.1.symm, h.2.symm⟩
    | some u =>
      simp only [] at h
      refine Or.inr ⟨u, rfl, ?_⟩
      split at h
      · cases h
      · rename_i v1 heq1
        split at h
        · cases h
        · rename_i v2 heq2
          have e1 := applyWrite_ok heq1
          have e2 := applyWrite_ok heq2
          subst e1; subst e2
          cases h
          exact ⟨rfl, rfl⟩

/-- The committed effect of `POST /api/tasks` with resolved assignee
`(aid, nm)` and generated id `newId`. -/
def createTaskCommit (db : DB) (req : CreateTaskReq) (now : Nat) (newId : String)
    (aid nm : String) : DB :=
  let completedBool := req.completed.getD false
  let newTask : TaskDoc :=
    ⟨newId, req.name.getD "", req.description.getD "", req.deadline.getD 0,
      completedBool, aid, if aid != "" then nm else "unassigned", now⟩
  let d1 : DB := ⟨db.users, db.tasks ++ [newTask]⟩
  if aid != "" && !completedBool then
    ⟨d1.users.map (fun u =>
        if u.id == aid then { u with pendingTasks := addToSet u.pendingTasks newId }
        else u),
      d1.tasks⟩
  else d1

theorem createTaskBody_ok {db : DB} {req : CreateTaskReq} {now : Nat} {newId : String}
    {f : Option Nat} {db' : DB} {resp : Resp}
    (h : createTaskBody db req now newId f = .ok (db', resp)) :
    (db' = db ∧ resp = ⟨400, "Missing required fields"⟩) ∨
      (∃ aid nm, resolveAssignee db (req.assignedUser.getD "") = .ok (aid, nm) ∧
        db' = createTaskCommit db req now newId aid nm ∧
        resp = ⟨201, "Task created"⟩) := by
  unfold createTaskBody at h
  simp only [bind, Except.bind, pure, Except.pure] at h
  split at h
  · simp at h; exact Or.inl ⟨h.1.symm, h.2.symm⟩
  · cases hres : resolveAssignee db (req.assignedUser.getD "") with
    | error e => rw [hres] at h; cases h
    | ok resolved =>
      rw [hres] at h
      simp only [] at h
      refine Or.inr ⟨resolved.1, resolved.2, rfl, ?_⟩
      split at h
      · cases h
      · rename_i v1 heq1
        have e1 := applyWrite_ok heq1
        subst e1
        split at h
        case isTrue hcond =>
          split at h
          · cases h
          · rename_i v2 heq2
            have e2 := applyWrite_ok heq2
            subst e2
            cases h
            exact ⟨by simp [createTaskCommit, hcond], rfl⟩
        case isFalse hcond =>
          cases h
          exact ⟨by simp [createTaskCommit, hcond], rfl⟩

theorem filterPendingTasks_tasks_eq (us us' : List UserDoc) (ts : List TaskDoc)
    (r : List String) :
    filterPendingTasks ⟨us, ts⟩ r = filterPendingTasks ⟨us', ts⟩ r := rfl

/-- The committed effect of `POST /api/users` with generated id `newId` and
filtered pending list `vts`. -/
def createUserCommit (db : DB) (name email : String) (requested : List String)
    (now : Nat) (newId : String) (vts : List String) : DB :=
  let users1 := db.users ++ [⟨newId, name, email, requested, now⟩]
  if !vts.isEmpty then
    let tasks1 := db.tasks.map (fun t =>
      if vts.contains t.id then { t with assignedUser := newId, assignedUserName := name }
      else t)
    let users2 := users1.map (fun u =>
      if !(u.id == newId) && u.pendingTasks.any (fun x => vts.contains x) then
        { u with pendingTasks := u.pendingTasks.filter (fun x => !vts.contains x) }
      else u)
    let users3 := users2.map (fun u =>
      if u.id == newId then { u with pendingTasks := vts } else u)
    ⟨users3, tasks1⟩
  else
    ⟨users1.map (fun u => if u.id == newId then { u with pendingTasks := [] } else u),
      db.tasks⟩

theorem createUserBody_ok {db : DB} {req : CreateUserReq} {now : Nat} {newId : String}
    {f : Option Nat} {dk : Bool} {db' : DB} {resp : Resp}
    (h : createUserBody db req now newId f dk = .ok (db', resp)) :
    (db' = db ∧ resp.status = 400) ∨
      (∃ vts, filterPendingTasks db (req.pendingTasks.getD []) = .ok vts ∧
        db' = createUserCommit db (req.name.getD "") (req.email.getD "")
          (req.pendingTasks.getD []) now newId vts ∧
        resp = ⟨201, "User created"⟩) := by
  unfold createUserBody at h
  simp only [bind, Except.bind, pure, Except.pure] at h
  split at h
  · simp at h; exact Or.inl ⟨h.1.symm, by rw [← h.2]⟩
  · split at h
    · simp at h; exact Or.inl ⟨h.1.symm, by rw [← h.2]⟩
    · split at h
      · cases h
      · split at h
        · cases h
        · rename_i hdk v1 heq1
          have e1 := applyWrite_ok heq1
          subst e1
          cases hflt : filterPendingTasks db (req.pendingTasks.getD []) with
          | error e =>
            rw [show filterPendingTasks
                ⟨db.users ++ [⟨newId, req.name.getD "", req.email.getD "",
                  req.pendingTasks.getD [], now⟩], db.tasks⟩ (req.pendingTasks.getD []) =
                filterPendingTasks db (req.pendingTasks.getD []) from rfl, hflt] at h
            cases h
          | ok vts =>
            rw [show filterPendingTasks
                ⟨db.users ++ [⟨newId, req.name.getD "", req.email.getD "",
                  req.pendingTasks.getD [], now⟩], db.tasks⟩ (req.pendingTasks.getD []) =
                filterPendingTasks db (req.pendingTasks.getD []) from rfl, hflt] at h
            simp only [] at h
            refine Or.inr ⟨vts, rfl, ?_⟩
            split at h
            case isTrue hne =>
              split at h
              · cases h
              · rename_i v2 heq2
                have e2 := applyWrite_ok heq2
                subst e2
                split at h
                · cases h
                · rename_i v3 heq3
                  have e3 := applyWrite_ok heq3
                  subst e3
                  split at h
                  · cases h
                  · rename_i v4 heq4
                    have e4 := applyWrite_ok heq4
                    subst e4
                    cases h
                    exact ⟨by simp [createUserCommit, hne], rfl⟩
            case isFalse hne =>
              split at h
              · cases h
              · rename_i v2 heq2
                have e2 := applyWrite_ok heq2
                subst e2
                cases h
                exact ⟨by simp [createUserCommit, hne], rfl⟩

/-- The committed effect of `PUT /api/tasks/:id` on stored task `cur` with
resolved new assignee `(na, nnm)`. -/
def replaceTaskCommit (db : DB) (tid : String) (req : ReplaceTaskReq) (cur : TaskDoc)
    (na nnm : String) : DB :=
  let cb := req.completed.getD false
  let tasks1 := db.tasks.map (fun t =>
    if t.id == tid then
      ⟨t.id, req.name.getD "", req.description.getD "", req.deadline.getD 0,
        cb, na, if na != "" then nnm else "unassigned", cur.dateCreated⟩
    else t)
  let users1 :=
    if cur.assignedUser != "" && cur.assignedUser != na then
      db.users.map (fun u =>
        if u.id == cur.assignedUser then
          { u with pendingTasks := u.pendingTasks.filter (fun x => x != tid) }
        else u)
    else db.users
  let users2 :=
    if na != "" then
      if cb then
        users1.map (fun u =>
          if u.id == na then
            { u with pendingTasks := u.pendingTasks.filter (fun x => x != tid) }
          else u)
      else
        users1.map (fun u =>
          if u.id == na then { u with pendingTasks := addToSet u.pendingTasks tid }
          else u)
    else users1
  ⟨users2, tasks1⟩

theorem replaceTaskBody_ok {db : DB} {tid : String} {req : ReplaceTaskReq}
    {f : Option Nat} {db' : DB} {resp : Resp}
    (h : replaceTaskBody db tid req f = .ok (db', resp)) :
    (db' = db ∧ resp.status = 400) ∨ (db' = db ∧ resp = ⟨404, "Task not found"⟩) ∨
      (∃ cur na nnm, findTaskById db tid = .ok (some cur) ∧
        resolveAssignee db (req.assignedUser.getD "") = .ok (na, nnm) ∧
        db' = replaceTaskCommit db tid req cur na nnm ∧
        resp = ⟨200, "Task updated"⟩) := by
  unfold replaceTaskBody at h
  simp only [bind, Except.bind, pure, Except.pure] at h
  cases hfind : findTaskById db tid with
  | error e => rw [hfind] at h; cases h
  | ok curOpt =>
    rw [hfind] at h
    cases curOpt with
    | none =>
      simp at h; exact Or.inr (Or.inl ⟨h.1.symm, h.2.symm⟩)
    | some cur =>
      simp only [] at h
      split at h
      · simp at h; exact Or.inl ⟨h.1.symm, by rw [← h.2]⟩
      · cases hres : resolveAssignee db (req.assignedUser.getD "") with
        | error e => rw [hres] at h; cases h
        | ok resolved =>
          rw [hres] at h
          simp only [] at h
          refine Or.inr (Or.inr ⟨cur, resolved.1, resolved.2, rfl, rfl, ?_⟩)
          split at h
          · cases h
          · rename_i v1 heq1
            have e1 := applyWrite_ok heq1
            subst e1
            split at h
            case isTrue hprev =>
              split at h
              · cases h
              · rename_i v2 heq2
                have e2 := applyWrite_ok heq2
                subst e2
                split at h
                case isTrue hna =>
                  split at h
                  case isTrue hcb =>
                    split at h
                    · cases h
                    · rename_i v3 heq3
                      have e3 := applyWrite_ok heq3
                      subst e3
                      cases h
                      exact ⟨by simp [replaceTaskCommit, hprev, hna, hcb], rfl⟩
                  case isFalse hcb =>
                    split at h
                    · cases h
                    · rename_i v3 heq3
                      have e3 := applyWrite_ok heq3
                      subst e3
                      cases h
                      exact ⟨by simp [replaceTaskCommit, hprev, hna, hcb], rfl⟩
                case isFalse hna =>
                  cases h
                  exact ⟨by simp [replaceTaskCommit, hprev, hna], rfl⟩
            case isFalse hprev =>
              split at h
              case isTrue hna =>
                split at h
                case isTrue hcb =>
                  split at h
                  · cases h
                  · rename_i v3 heq3
                    have e3 := applyWrite_ok heq3
                    subst e3
                    cases h
                    exact ⟨by simp [replaceTaskCommit, hprev, hna, hcb], rfl⟩
                case isFalse hcb =>
                  split at h
                  · cases h
                  · rename_i v3 heq3
                    have e3 := applyWrite_ok heq3
                    subst e3
                    cases h
                    exact ⟨by simp [replaceTaskCommit, hprev, hna, hcb], rfl⟩
              case isFalse hna =>
                cases h
                exact ⟨by simp [replaceTaskCommit, hprev, hna], rfl⟩

theorem taskQueryIds_map (g : TaskDoc → TaskDoc) (hid : ∀ t, (g t).id = t.id)
    (hcomp : ∀ t, (g t).completed = t.completed) (ts : List TaskDoc) (r : List String) :
    ((ts.map g).filter (fun t => r.contains t.id && !t.completed)).map (fun t => t.id)
      = (ts.filter (fun t => r.contains t.id && !t.completed)).map (fun t => t.id) := by
  have hp : ((fun t : TaskDoc => r.contains t.id && !t.completed) ∘ g)
      = (fun t : TaskDoc => r.contains t.id && !t.completed) :=
    funext fun t => by simp [Function.comp, hid t, hcomp t]
  have hf : ((fun t : TaskDoc => t.id) ∘ g) = (fun t : TaskDoc => t.id) :=
    funext fun t => hid t
  rw [List.filter_map, List.map_map, hp, hf]

theorem filterPendingTasks_unassign (us : List UserDoc) (db : DB) (uid : String)
    (r : List String) :
    filterPendingTasks ⟨us, db.tasks.map (fun t =>
        if t.assignedUser == uid && !t.completed then
          { t with assignedUser := "", assignedUserName := "unassigned" }
        else t)⟩ r = filterPendingTasks db r := by
  unfold filterPendingTasks
  split
  · rfl
  · unfold validTaskIds
    split
    · congr 1
      exact taskQueryIds_map _ (fun t => by split <;> rfl) (fun t => by split <;> rfl)
        db.tasks r
    · rfl

/-- The committed effect of `PUT /api/users/:id` with filtered pending list
`vts` and the original creation date re-included. -/
def replaceUserCommit (db : DB) (uid name email : String) (vts : List String)
    (origDate : Nat) : DB :=
  let tasks1 := db.tasks.map (fun t =>
    if t.assignedUser == uid && !t.completed then
      { t with assignedUser := "", assignedUserName := "unassigned" }
    else t)
  let tasks2 :=
    if !vts.isEmpty then
      tasks1.map (fun t =>
        if vts.contains t.id then { t with assignedUser := uid, assignedUserName := name }
        else t)
    else tasks1
  let users1 :=
    if !vts.isEmpty then
      db.users.map (fun u =>
        if !(u.id == uid) && u.pendingTasks.any (fun x => vts.contains x) then
          { u with pendingTasks := u.pendingTasks.filter (fun x => !vts.contains x) }
        else u)
    else db.users
  let users2 := users1.map (fun u =>
    if u.id == uid then ⟨uid, name, email, vts, origDate⟩ else u)
  ⟨users2, tasks2⟩

theorem replaceUserBody_ok {db : DB} {uid : String} {req : ReplaceUserReq}
    {f : Option Nat} {dk : Bool} {db' : DB} {resp : Resp}
    (h : replaceUserBody db uid req f dk = .ok (db', resp)) :
    (db' = db ∧ resp.status ≠ 200) ∨
      (∃ user vts, findUserById db uid = .ok (some user) ∧
        filterPendingTasks db (req.pendingTasks.getD []) = .ok vts ∧
        db' = replaceUserCommit db uid (req.name.getD "") (req.email.getD "") vts
          user.dateCreated ∧
        resp = ⟨200, "User updated"⟩) := by
  unfold replaceUserBody at h
  simp only [bind, Except.bind, pure, Except.pure] at h
  cases hfind : findUserById db uid with
  | error e => rw [hfind] at h; cases h
  | ok userOpt =>
    rw [hfind] at h
    cases userOpt with
    | none => simp at h; exact Or.inl ⟨h.1.symm, by rw [← h.2]; simp⟩
    | some user =>
      simp only [] at h
      split at h
      · simp at h; exact Or.inl ⟨h.1.symm, by rw [← h.2]; simp⟩
      · split at h
        · simp at h; exact Or.inl ⟨h.1.symm, by rw [← h.2]; simp⟩
        · split at h
          · cases h
          · rename_i v1 heq1
            have e1 := applyWrite_ok heq1
            subst e1
            rw [filterPendingTasks_unassign] at h
            cases hflt : filterPendingTasks db (req.pendingTasks.getD []) with
            | error e => rw [hflt] at h; cases h
            | ok vts =>
              rw [hflt] at h
              simp only [] at h
              refine Or.inr ⟨user, vts, rfl, rfl, ?_⟩
              split at h
              case isTrue hne =>
                split at h
                · cases h
                · rename_i v2 heq2
                  have e2 := applyWrite_ok heq2
                  subst e2
                  split at h
                  · cases h
                  · rename_i v3 heq3
                    have e3 := applyWrite_ok heq3
                    subst e3
                    split at h
                    · cases h
                    · split at h
                      · cases h
                      · rename_i hdk v4 heq4
                        have e4 := applyWrite_ok heq4
                        subst e4
                        cases h
                        exact ⟨by simp [replaceUserCommit, hne], rfl⟩
              case isFalse hne =>
                split at h
                · cases h
                · split at h
                  · cases h
                  · rename_i hdk v4 heq4
                    have e4 := applyWrite_ok heq4
                    subst e4
                    cases h
                    exact ⟨by simp [replaceUserCommit, hne], rfl⟩

/-! ## Atomicity: a route either commits in full or leaves the state
unchanged, whatever the fault schedule does. -/

theorem createUser_atomic (db : DB) (req : CreateUserReq) (now : Nat) (newId : String)
    (f : Option Nat) (dk : Bool) :
    (createUser db req now newId f dk).1 = db ∨
      (createUser db req now newId f dk).2.status = 201 := by
  unfold createUser
  cases hb : createUserBody db req now newId f dk with
  | error e => exact Or.inl rfl
  | ok r =>
    obtain ⟨db', resp⟩ := r
    rcases createUserBody_ok hb with ⟨h1, _⟩ | ⟨vts, _, h2, h3⟩
    · exact Or.inl h1
    · exact Or.inr (by rw [h3])

theorem replaceUser_atomic (db : DB) (uid : String) (req : ReplaceUserReq)
    (f : Option Nat) (dk : Bool) :
    (replaceUser db uid req f dk).1 = db ∨
      (replaceUser db uid req f dk).2.status = 200 := by
  unfold replaceUser
  cases hb : replaceUserBody db uid req f dk with
  | error e => exact Or.inl rfl
  | ok r =>
    obtain ⟨db', resp⟩ := r
    rcases replaceUserBody_ok hb with ⟨h1, _⟩ | ⟨user, vts, _, _, h2, h3⟩
    · exact Or.inl h1
    · exact Or.inr (by rw [h3])

theorem deleteUser_atomic (db : DB) (uid : String) (f : Option Nat) :
    (deleteUser db uid f).1 = db ∨ (deleteUser db uid f).2.status = 204 := by
  unfold deleteUser
  cases hb : deleteUserBody db uid f with
  | error e => exact Or.inl rfl
  | ok r =>
    obtain ⟨db', resp⟩ := r
    rcases deleteUserBody_ok hb with ⟨h1, _⟩ | ⟨u, _, h2, h3⟩
    · exact Or.inl h1
    · exact Or.inr (by rw [h3])

theorem createTask_atomic (db : DB) (req : CreateTaskReq) (now : Nat) (newId : String)
    (f : Option Nat) :
    (createTask db req now newId f).1 = db ∨
      (createTask db req now newId f).2.status = 201 := by
  unfold createTask
  cases hb : createTaskBody db req now newId f with
  | error e => exact Or.inl rfl
  | ok r =>
    obtain ⟨db', resp⟩ := r
    rcases createTaskBody_ok hb with ⟨h1, _⟩ | ⟨aid, nm, _, h2, h3⟩
    · exact Or.inl h1
    · exact Or.inr (by rw [h3])

theorem replaceTask_atomic (db : DB) (tid : String) (req : ReplaceTaskReq)
    (f : Option Nat) :
    (replaceTask db tid req f).1 = db ∨
      (replaceTask db tid req f).2.status = 200 := by
  unfold replaceTask
  cases hb : replaceTaskBody db tid req f with
  | error e => exact Or.inl rfl
  | ok r =>
    obtain ⟨db', resp⟩ := r
    rcases replaceTaskBody_ok hb with ⟨h1, _⟩ | ⟨h1, _⟩ | ⟨cur, na, nnm, _, _, h2, h3⟩
    · exact Or.inl h1
    · exact Or.inl h1
    · exact Or.inr (by rw [h3])

theorem deleteTask_atomic (db : DB) (tid : String) (f : Option Nat) :
    (deleteTask db tid f).1 = db ∨ (deleteTask db tid f).2.status = 204 := by
  unfold deleteTask
  cases hb : deleteTaskBody db tid f with
  | error e => exact Or.inl rfl
  | ok r =>
    obtain ⟨db', resp⟩ := r
    rcases deleteTaskBody_ok hb with ⟨h1, _⟩ | ⟨t, _, h2, h3⟩
    · exact Or.inl h1
    · exact Or.inr (by rw [h3])

/-! ## Helper lemmas on the store primitives -/

theorem isValidId_ne_empty {s : String} (h : isValidId s = true) : s ≠ "" := by
  intro he
  rw [he] at h
  exact absurd h (by decide)

theorem contains_iff_mem {l : List String} {x : String} :
    l.contains x = true ↔ x ∈ l := List.elem_iff

theorem mem_pull_iff {l : List String} {x y : String} :
    x ∈ l.filter (fun z => z != y) ↔ x ∈ l ∧ x ≠ y := by
  simp [List.mem_filter]

theorem mem_pullAll_iff {l vts : List String} {x : String} :
    x ∈ l.filter (fun z => !vts.contains z) ↔ x ∈ l ∧ x ∉ vts := by
  simp [List.mem_filter, contains_iff_mem]

theorem mem_addToSet_iff {l : List String} {x y : String} :
    x ∈ addToSet l y ↔ x ∈ l ∨ x = y := by
  unfold addToSet
  split
  case isTrue hc =>
    rw [contains_iff_mem] at hc
    constructor
    · exact fun h => Or.inl h
    · rintro (h | rfl)
      · exact h
      · exact hc
  case isFalse hc =>
    simp [List.mem_append]

theorem findUser_some {db : DB} {uid : String} {u : UserDoc}
    (h : findUser db uid = some u) : u ∈ db.users ∧ u.id = uid := by
  unfold findUser at h
  refine ⟨List.mem_of_find?_eq_some h, ?_⟩
  have := List.find?_some h
  simpa using this

theorem findUser_none {db : DB} {uid : String} (h : findUser db uid = none) :
    ∀ u ∈ db.users, u.id ≠ uid := by
  unfold findUser at h
  intro u hu
  have := List.find?_eq_none.mp h u hu
  simpa using this

theorem findTask_some {db : DB} {tid : String} {t : TaskDoc}
    (h : findTask db tid = some t) : t ∈ db.tasks ∧ t.id = tid := by
  unfold findTask at h
  refine ⟨List.mem_of_find?_eq_some h, ?_⟩
  have := List.find?_some h
  simpa using this

theorem findUserById_ok_some {db : DB} {uid : String} {u : UserDoc}
    (h : findUserById db uid = .ok (some u)) :
    isValidId uid = true ∧ u ∈ db.users ∧ u.id = uid := by
  unfold findUserById at h
  split at h
  case isTrue hv =>
    injection h with h'
    exact ⟨hv, findUser_some h'⟩
  case isFalse hv => cases h

theorem findTaskById_ok_some {db : DB} {tid : String} {t : TaskDoc}
    (h : findTaskById db tid = .ok (some t)) :
    isValidId tid = true ∧ t ∈ db.tasks ∧ t.id = tid := by
  unfold findTaskById at h
  split at h
  case isTrue hv =>
    injection h with h'
    exact ⟨hv, findTask_some h'⟩
  case isFalse hv => cases h

theorem resolveAssignee_ok {db : DB} {a0 aid nm : String}
    (h : resolveAssignee db a0 = .ok (aid, nm)) :
    (aid = "" ∧ nm = "unassigned") ∨
      (aid = a0 ∧ ∃ u, u ∈ db.users ∧ u.id = aid ∧ nm = u.name) := by
  unfold resolveAssignee at h
  split at h
  · cases h; exact Or.inl ⟨rfl, rfl⟩
  · cases hf : findUserById db a0 with
    | error e => rw [hf] at h; cases h
    | ok uOpt =>
      rw [hf] at h
      cases uOpt with
      | some u =>
        simp only [] at h
        cases h
        obtain ⟨_, hu, hid⟩ := findUserById_ok_some hf
        exact Or.inr ⟨rfl, u, hu, hid, rfl⟩
      | none =>
        simp only [] at h
        cases h
        exact Or.inl ⟨rfl, rfl⟩

theorem filterPendingTasks_ok_iff {db : DB} {r v : List String}
    (h : filterPendingTasks db r = .ok v) :
    ∀ x, x ∈ v ↔ ∃ t, t ∈ db.tasks ∧ t.id = x ∧ x ∈ r ∧ t.completed = false := by
  unfold filterPendingTasks at h
  split at h
  case isTrue he =>
    cases h
    intro x
    simp only [List.not_mem_nil, false_iff, not_exists]
    rintro t ⟨ht, rfl, hr, hc⟩
    rw [List.isEmpty_iff] at he
    rw [he] at hr
    exact absurd hr (List.not_mem_nil _)
  case isFalse he =>
    unfold validTaskIds at h
    split at h
    · cases h
      intro x
      simp only [List.mem_map, List.mem_filter, Bool.and_eq_true, Bool.not_eq_true',
        contains_iff_mem]
      constructor
      · rintro ⟨t, ⟨ht, hr, hc⟩, rfl⟩
        exact ⟨t, ht, rfl, hr, hc⟩
      · rintro ⟨t, ht, rfl, hr, hc⟩
        exact ⟨t, ⟨ht, hr, hc⟩, rfl⟩
    · cases h

theorem filterPendingTasks_ok_valid {db : DB} {r v : List String}
    (h : filterPendingTasks db r = .ok v) (hne : r ≠ []) :
    ∀ x ∈ r, isValidId x = true := by
  unfold filterPendingTasks at h
  split at h
  case isTrue he => exact absurd (List.isEmpty_iff.mp he) hne
  case isFalse he =>
    unfold validTaskIds at h
    split at h
    case isTrue hall =>
      intro x hx
      exact List.all_eq_true.mp hall x hx
    case isFalse hall => cases h

theorem fresh_parts {db : DB} {x : String} (h : x ∉ usedIds db) :
    (∀ u ∈ db.users, u.id ≠ x) ∧ (∀ t ∈ db.tasks, t.id ≠ x) ∧
      (∀ t ∈ db.tasks, t.assignedUser ≠ x) ∧ (∀ u ∈ db.users, x ∉ u.pendingTasks) := by
  unfold usedIds at h
  simp only [List.mem_append, List.mem_map, List.mem_flatten, not_or, not_exists] at h
  obtain ⟨⟨⟨h1, h2⟩, h3⟩, h4⟩ := h
  refine ⟨?_, ?_, ?_, ?_⟩
  · intro u hu he; exact h1 u ⟨hu, he⟩
  · intro t ht he; exact h2 t ⟨ht, he⟩
  · intro t ht he; exact h3 t ⟨ht, he⟩
  · intro u hu hx
    have := h4 u.pendingTasks
    simp only [not_and] at this
    exact this ⟨u, hu, rfl⟩ hx

theorem map_id_eq {α : Type} {idf : α → String} {g : α → α}
    (hid : ∀ x, idf (g x) = idf x) (l : List α) :
    (l.map g).map idf = l.map idf := by
  rw [List.map_map]
  have : idf ∘ g = idf := funext hid
  rw [this]

theorem nodup_inj {α : Type} {idf : α → String} {l : List α}
    (h : (l.map idf).Nodup) {x y : α} (hx : x ∈ l) (hy : y ∈ l)
    (hf : idf x = idf y) : x = y :=
  List.inj_on_of_nodup_map h hx hy hf

theorem deleteTask_commit_inv {db : DB} {t : TaskDoc} (hInv : StateInv db) :
    StateInv (deleteTaskCommit db t) := by
  obtain ⟨⟨hnu, hnt, hvu, hvt⟩, hI2, hI1⟩ := hInv
  have hidg : ∀ u : UserDoc,
      (if u.id == t.assignedUser then
        { u with pendingTasks := u.pendingTasks.filter (fun x => x != t.id) }
      else u).id = u.id := fun u => by split <;> rfl
  unfold StateInv WF I2 I1open deleteTaskCommit
  refine ⟨⟨?_, ?_, ?_, ?_⟩, ?_, ?_⟩
  · -- user ids unchanged
    simp only []
    split
    · rw [map_id_eq hidg]; exact hnu
    · exact hnu
  · -- task ids form a sublist
    simp only []
    exact hnt.sublist ((List.filter_sublist _).map _)
  · -- user ids stay valid
    simp only []
    intro u' hu'
    split at hu'
    · obtain ⟨u, hu, rfl⟩ := List.mem_map.mp hu'
      rw [hidg u]
      exact hvu u hu
    · exact hvu u' hu'
  · -- task ids stay valid
    simp only []
    intro t' ht'
    exact hvt t' (List.mem_filter.mp ht').1
  · -- I2
    simp only []
    intro t' ht' u' hu'
    obtain ⟨ht'mem, ht'ne⟩ := List.mem_filter.mp ht'
    have hne : t'.id ≠ t.id := by simpa using ht'ne
    split at hu'
    · obtain ⟨u, hu, rfl⟩ := List.mem_map.mp hu'
      by_cases hmatch : (u.id == t.assignedUser) = true
      · rw [if_pos hmatch]
        simp only []
        rw [mem_pull_iff]
        constructor
        · rintro ⟨hmem, -⟩
          exact (hI2 t' ht'mem u hu).mp hmem
        · intro hassign
          exact ⟨(hI2 t' ht'mem u hu).mpr hassign, hne⟩
      · rw [if_neg hmatch]
        exact hI2 t' ht'mem u hu
    · exact hI2 t' ht'mem u' hu'
  · -- I1open
    simp only []
    intro t' ht' hcomp
    obtain ⟨ht'mem, -⟩ := List.mem_filter.mp ht'
    rcases hI1 t' ht'mem hcomp with h | ⟨u, hu, hid⟩
    · exact Or.inl h
    · refine Or.inr ?_
      split
      · refine ⟨_, List.mem_map.mpr ⟨u, hu, rfl⟩, ?_⟩
        rw [hidg u]
        exact hid
      · exact ⟨u, hu, hid⟩

theorem deleteUser_commit_inv {db : DB} {u : UserDoc} (hInv : StateInv db) :
    StateInv (deleteUserCommit db u) := by
  obtain ⟨⟨hnu, hnt, hvu, hvt⟩, hI2, hI1⟩ := hInv
  have hidg : ∀ t : TaskDoc,
      (if t.assignedUser == u.id && !t.completed then
        { t with assignedUser := "", assignedUserName := "unassigned" }
      else t).id = t.id := fun t => by split <;> rfl
  unfold StateInv WF I2 I1open deleteUserCommit
  refine ⟨⟨?_, ?_, ?_, ?_⟩, ?_, ?_⟩
  · simp only []
    exact hnu.sublist ((List.filter_sublist _).map _)
  · simp only []
    rw [map_id_eq hidg]; exact hnt
  · simp only []
    intro u' hu'
    exact hvu u' (List.mem_filter.mp hu').1
  · simp only []
    intro t' ht'
    obtain ⟨t, htmem, rfl⟩ := List.mem_map.mp ht'
    rw [hidg t]
    exact hvt t htmem
  · -- I2
    simp only []
    intro t'' ht'' u' hu'
    obtain ⟨t, htmem, rfl⟩ := List.mem_map.mp ht''
    obtain ⟨hu'mem, hu'neb⟩ := List.mem_filter.mp hu'
    have hu'ne : u'.id ≠ u.id := by simpa using hu'neb
    by_cases hcond : (t.assignedUser == u.id && !t.completed) = true
    · rw [if_pos hcond]
      simp only [Bool.and_eq_true, beq_iff_eq, Bool.not_eq_true'] at hcond
      obtain ⟨hassign, hcomp⟩ := hcond
      constructor
      · intro hmem
        have := (hI2 t htmem u' hu'mem).mp hmem
        exact absurd (hassign ▸ this.1) (fun he => hu'ne he.symm)
      · rintro ⟨he, -⟩
        exact absurd he.symm (isValidId_ne_empty (hvu u' hu'mem))
    · rw [if_neg hcond]
      exact hI2 t htmem u' hu'mem
  · -- I1open
    simp only []
    intro t'' ht'' hcomp
    obtain ⟨t, htmem, rfl⟩ := List.mem_map.mp ht''
    by_cases hcond : (t.assignedUser == u.id && !t.completed) = true
    · rw [if_pos hcond]
      exact Or.inl rfl
    · rw [if_neg hcond] at hcomp ⊢
      rcases hI1 t htmem hcomp with h | ⟨u0, hu0, hid⟩
      · exact Or.inl h
      · refine Or.inr ⟨u0, List.mem_filter.mpr ⟨hu0, ?_⟩, hid⟩
        simp only [Bool.and_eq_true, beq_iff_eq, Bool.not_eq_true'] at hcond
        simp only [Bool.not_eq_true', beq_eq_false_iff_ne]
        intro he
        exact hcond ⟨by rw [← hid, he], hcomp⟩

theorem createTask_commit_inv {db : DB} {req : CreateTaskReq} {now : Nat}
    {newId : String} {aid nm : String} (hInv : StateInv db)
    (hv : isValidId newId = true) (hfresh : newId ∉ usedIds db)
    (hres : aid = "" ∨ ∃ u0, u0 ∈ db.users ∧ u0.id = aid) :
    StateInv (createTaskCommit db req now newId aid nm) := by
  obtain ⟨⟨hnu, hnt, hvu, hvt⟩, hI2, hI1⟩ := hInv
  obtain ⟨hfu, hft, hfa, hfp⟩ := fresh_parts hfresh
  have hidg : ∀ u : UserDoc,
      (if u.id == aid then
        { u with pendingTasks := addToSet u.pendingTasks newId }
      else u).id = u.id := fun u => by split <;> rfl
  unfold StateInv WF I2 I1open createTaskCommit
  set cb := req.completed.getD false with hcb
  set newTask : TaskDoc :=
    ⟨newId, req.name.getD "", req.description.getD "", req.deadline.getD 0,
      cb, aid, if aid != "" then nm else "unassigned", now⟩ with hnewTask
  have hntid : newTask.id = newId := rfl
  have htasks_nodup : ((db.tasks ++ [newTask]).map TaskDoc.id).Nodup := by
    rw [List.map_append]
    rw [List.nodup_append]
    refine ⟨hnt, by simp, ?_⟩
    intro x hx
    obtain ⟨t, htmem, rfl⟩ := List.mem_map.mp hx
    simp only [List.map_cons, List.map_nil, List.mem_singleton]
    intro he
    exact hft t htmem (he.trans hntid)
  have htasks_valid : ∀ t' ∈ db.tasks ++ [newTask], isValidId t'.id = true := by
    intro t' ht'
    rcases List.mem_append.mp ht' with h | h
    · exact hvt t' h
    · rw [List.mem_singleton.mp h]
      exact hv
  refine ⟨⟨?_, ?_, ?_, ?_⟩, ?_, ?_⟩
  · simp only []
    split
    · rw [map_id_eq hidg]; exact hnu
    · exact hnu
  · simp only []
    split
    · exact htasks_nodup
    · exact htasks_nodup
  · simp only []
    split
    · intro u' hu'
      obtain ⟨u, hu, rfl⟩ := List.mem_map.mp hu'
      rw [hidg u]
      exact hvu u hu
    · exact hvu
  · simp only []
    split
    · exact htasks_valid
    · exact htasks_valid
  · -- I2
    simp only []
    split
    case isTrue hcond =>
      simp only [Bool.and_eq_true, bne_iff_ne, Bool.not_eq_true'] at hcond
      obtain ⟨haid, hcbf⟩ := hcond
      intro t'' ht'' u' hu'
      obtain ⟨u, hu, rfl⟩ := List.mem_map.mp hu'
      rcases List.mem_append.mp ht'' with htold | hnew
      · -- an existing task
        by_cases hmatch : (u.id == aid) = true
        · rw [if_pos hmatch]
          simp only []
          rw [mem_addToSet_iff]
          have hne : t''.id ≠ newId := hft t'' htold
          constructor
          · rintro (hmem | he)
            · exact (hI2 t'' htold u hu).mp hmem
            · exact absurd he hne
          · intro h
            exact Or.inl ((hI2 t'' htold u hu).mpr h)
        · rw [if_neg hmatch]
          exact hI2 t'' htold u hu
      · -- the new task
        rw [List.mem_singleton.mp hnew]
        by_cases hmatch : (u.id == aid) = true
        · rw [if_pos hmatch]
          simp only []
          have hrhs : newTask.assignedUser = u.id ∧ newTask.completed = false := by
            refine ⟨?_, hcbf⟩
            show aid = u.id
            exact (beq_iff_eq.mp hmatch).symm
          have hlhs : newTask.id ∈ addToSet u.pendingTasks newId := by
            rw [mem_addToSet_iff]
            exact Or.inr hntid
          exact iff_of_true hlhs hrhs
        · rw [if_neg hmatch]
          have hmem : newId ∉ u.pendingTasks := hfp u hu
          have hne : ¬(newTask.assignedUser = u.id) := by
            show ¬(aid = u.id)
            intro he
            exact hmatch (beq_iff_eq.mpr he.symm)
          simp only [hntid]
          exact ⟨fun h => absurd h hmem, fun h => absurd h.1 hne⟩
    case isFalse hcond =>
      intro t'' ht'' u' hu'
      rcases List.mem_append.mp ht'' with htold | hnew
      · exact hI2 t'' htold u' hu'
      · rw [List.mem_singleton.mp hnew]
        simp only [hntid]
        have hmem : newId ∉ u'.pendingTasks := hfp u' hu'
        refine ⟨fun h => absurd h hmem, ?_⟩
        rintro ⟨he, hcf⟩
        exfalso
        have haid : aid = "" := by
          by_contra ha
          exact hcond (by simp [bne_iff_ne, ha, hcf])
        have : u'.id ≠ "" := isValidId_ne_empty (hvu u' hu')
        exact this (by rw [← he, haid])
  · -- I1open
    simp only []
    split
    case isTrue hcond =>
      intro t'' ht'' hcomp
      rcases List.mem_append.mp ht'' with htold | hnew
      · rcases hI1 t'' htold hcomp with h | ⟨u0, hu0, hid⟩
        · exact Or.inl h
        · exact Or.inr ⟨_, List.mem_map.mpr ⟨u0, hu0, rfl⟩, by rw [hidg u0]; exact hid⟩
      · rw [List.mem_singleton.mp hnew]
        rcases hres with h | ⟨u0, hu0, hid⟩
        · exact Or.inl h
        · exact Or.inr ⟨_, List.mem_map.mpr ⟨u0, hu0, rfl⟩, by rw [hidg u0]; exact hid⟩
    case isFalse hcond =>
      intro t'' ht'' hcomp
      rcases List.mem_append.mp ht'' with htold | hnew
      · exact hI1 t'' htold hcomp
      · rw [List.mem_singleton.mp hnew]
        rcases hres with h | ⟨u0, hu0, hid⟩
        · exact Or.inl h
        · exact Or.inr ⟨u0, hu0, hid⟩

theorem createUser_commit_inv {db : DB} {name email : String} {requested : List String}
    {now : Nat} {newId : String} {vts : List String} (hInv : StateInv db)
    (hv : isValidId newId = true) (hfresh : newId ∉ usedIds db)
    (hvts : filterPendingTasks db requested = .ok vts) :
    StateInv (createUserCommit db name email requested now newId vts) := by
  obtain ⟨⟨hnu, hnt, hvu, hvt⟩, hI2, hI1⟩ := hInv
  obtain ⟨hfu, hft, hfa, hfp⟩ := fresh_parts hfresh
  have hvmem := filterPendingTasks_ok_iff hvts
  have hvcomp : ∀ t ∈ db.tasks, t.id ∈ vts → t.completed = false := by
    intro t htm hid
    obtain ⟨t0, ht0, hid0, -, hc0⟩ := (hvmem t.id).mp hid
    have : t0 = t := nodup_inj hnt ht0 htm hid0
    rw [← this]
    exact hc0
  unfold createUserCommit
  by_cases hvE : vts.isEmpty = true
  · -- no valid requested task: only the user insert happens
    rw [if_neg (by simp [hvE])]
    have hvnil : vts = [] := List.isEmpty_iff.mp hvE
    have husersF : ∀ u' : UserDoc,
        u' ∈ (db.users ++ [(⟨newId, name, email, requested, now⟩ : UserDoc)]).map (fun u =>
          if u.id == newId then { u with pendingTasks := [] } else u) →
          (u' ∈ db.users ∧ u'.id ≠ newId) ∨ u' = ⟨newId, name, email, [], now⟩ := by
      intro u' hu'
      obtain ⟨u, hu, rfl⟩ := List.mem_map.mp hu'
      rcases List.mem_append.mp hu with hold | hnew
      · rw [if_neg (by simp [hfu u hold])]
        exact Or.inl ⟨hold, hfu u hold⟩
      · rw [List.mem_singleton.mp hnew]
        rw [if_pos (by simp)]
        exact Or.inr rfl
    have husersB : ∀ u ∈ db.users,
        u ∈ (db.users ++ [(⟨newId, name, email, requested, now⟩ : UserDoc)]).map (fun u =>
          if u.id == newId then { u with pendingTasks := [] } else u) := by
      intro u hold
      exact List.mem_map.mpr ⟨u, List.mem_append.mpr (Or.inl hold),
        by rw [if_neg (by simp [hfu u hold])]⟩
    refine ⟨⟨?_, hnt, ?_, hvt⟩, ?_, ?_⟩
    · rw [map_id_eq (fun u => by split <;> rfl), List.map_append]
      rw [List.nodup_append]
      refine ⟨hnu, by simp, ?_⟩
      intro x hx
      obtain ⟨u, hum, rfl⟩ := List.mem_map.mp hx
      simp only [List.map_cons, List.map_nil, List.mem_singleton]
      exact hfu u hum
    · intro u' hu'
      rcases husersF u' hu' with ⟨hold, -⟩ | rfl
      · exact hvu u' hold
      · exact hv
    · intro t'' ht'' u' hu'
      rcases husersF u' hu' with ⟨hold, -⟩ | rfl
      · exact hI2 t'' ht'' u' hold
      · simp only [List.not_mem_nil, false_iff, not_and]
        intro he
        exact absurd he (hfa t'' ht'')
    · intro t'' ht'' hcomp
      rcases hI1 t'' ht'' hcomp with h | ⟨u0, hu0, hid0⟩
      · exact Or.inl h
      · exact Or.inr ⟨u0, husersB u0 hu0, hid0⟩
  · -- at least one valid requested task
    rw [if_pos (by simp [hvE])]
    have hidP : ∀ u : UserDoc,
        (if !(u.id == newId) && u.pendingTasks.any (fun x => vts.contains x) then
          { u with pendingTasks := u.pendingTasks.filter (fun x => !vts.contains x) }
        else u).id = u.id := fun u => by split <;> rfl
    have hidS : ∀ u : UserDoc,
        (if u.id == newId then { u with pendingTasks := vts } else u).id = u.id :=
      fun u => by split <;> rfl
    have husersF : ∀ u' : UserDoc,
        u' ∈ ((db.users ++ [(⟨newId, name, email, requested, now⟩ : UserDoc)]).map (fun u =>
            if !(u.id == newId) && u.pendingTasks.any (fun x => vts.contains x) then
              { u with pendingTasks := u.pendingTasks.filter (fun x => !vts.contains x) }
            else u)).map (fun u : UserDoc =>
            if u.id == newId then { u with pendingTasks := vts } else u) →
          (∃ u ∈ db.users, u'.id = u.id ∧ u'.id ≠ newId ∧
            (∀ x, x ∈ u'.pendingTasks ↔ x ∈ u.pendingTasks ∧ x ∉ vts)) ∨
            u' = ⟨newId, name, email, vts, now⟩ := by
      intro u' hu'
      obtain ⟨u1, hu1, rfl⟩ := List.mem_map.mp hu'
      obtain ⟨u, hu, rfl⟩ := List.mem_map.mp hu1
      rcases List.mem_append.mp hu with hold | hnew
      · refine Or.inl ?_
        have hne : u.id ≠ newId := hfu u hold
        by_cases hany : (u.pendingTasks.any (fun x => vts.contains x)) = true
        · have hc1 : (!(u.id == newId) && u.pendingTasks.any (fun x => vts.contains x))
              = true := by
            rw [Bool.and_eq_true]
            exact ⟨by simp [hne], hany⟩
          rw [if_pos hc1]
          have hc2 : ¬(({ u with pendingTasks :=
              u.pendingTasks.filter (fun x => !vts.contains x) } : UserDoc).id == newId)
              = true := by simp [hne]
          rw [if_neg hc2]
          exact ⟨u, hold, rfl, hne, fun x => mem_pullAll_iff⟩
        · have hc1 : ¬(!(u.id == newId) && u.pendingTasks.any (fun x => vts.contains x))
              = true := by
            rw [Bool.and_eq_true]
            rintro ⟨-, h2⟩
            exact hany h2
          rw [if_neg hc1]
          have hc2 : ¬((u.id == newId) = true) := by simp [hne]
          rw [if_neg hc2]
          refine ⟨u, hold, rfl, hne, ?_⟩
          intro x
          constructor
          · intro hx
            refine ⟨hx, fun hxv => ?_⟩
            exact hany (List.any_eq_true.mpr ⟨x, hx, contains_iff_mem.mpr hxv⟩)
          · exact fun h => h.1
      · rw [List.mem_singleton.mp hnew]
        have hc1 : ¬(!((⟨newId, name, email, requested, now⟩ : UserDoc).id == newId)
            && (⟨newId, name, email, requested, now⟩ : UserDoc).pendingTasks.any
              (fun x => vts.contains x)) = true := by
          rw [Bool.and_eq_true]
          rintro ⟨h1, -⟩
          simp at h1
        rw [if_neg hc1]
        have hc2 : (((⟨newId, name, email, requested, now⟩ : UserDoc).id == newId))
            = true := by simp
        rw [if_pos hc2]
        exact Or.inr rfl
    have husersB : ∀ u ∈ db.users, ∃ u',
        u' ∈ ((db.users ++ [(⟨newId, name, email, requested, now⟩ : UserDoc)]).map (fun u =>
            if !(u.id == newId) && u.pendingTasks.any (fun x => vts.contains x) then
              { u with pendingTasks := u.pendingTasks.filter (fun x => !vts.contains x) }
            else u)).map (fun u : UserDoc =>
            if u.id == newId then { u with pendingTasks := vts } else u) ∧
          u'.id = u.id := by
      intro u hold
      refine ⟨_, List.mem_map.mpr ⟨_, List.mem_map.mpr ⟨u,
        List.mem_append.mpr (Or.inl hold), rfl⟩, rfl⟩, ?_⟩
      rw [hidS, hidP]
    have hnewB : (⟨newId, name, email, vts, now⟩ : UserDoc) ∈
        ((db.users ++ [(⟨newId, name, email, requested, now⟩ : UserDoc)]).map (fun u =>
            if !(u.id == newId) && u.pendingTasks.any (fun x => vts.contains x) then
              { u with pendingTasks := u.pendingTasks.filter (fun x => !vts.contains x) }
            else u)).map (fun u : UserDoc =>
            if u.id == newId then { u with pendingTasks := vts } else u) := by
      refine List.mem_map.mpr ⟨_, List.mem_map.mpr ⟨⟨newId, name, email, requested, now⟩,
        List.mem_append.mpr (Or.inr (List.mem_singleton.mpr rfl)), rfl⟩, ?_⟩
      have hc1 : ¬(!((⟨newId, name, email, requested, now⟩ : UserDoc).id == newId)
          && (⟨newId, name, email, requested, now⟩ : UserDoc).pendingTasks.any
            (fun x => vts.contains x)) = true := by
        rw [Bool.and_eq_true]
        rintro ⟨h1, -⟩
        simp at h1
      rw [if_neg hc1]
      have hc2 : (((⟨newId, name, email, requested, now⟩ : UserDoc).id == newId))
          = true := by simp
      rw [if_pos hc2]
    refine ⟨⟨?_, ?_, ?_, ?_⟩, ?_, ?_⟩
    · rw [map_id_eq hidS, map_id_eq hidP, List.map_append]
      rw [List.nodup_append]
      refine ⟨hnu, by simp, ?_⟩
      intro x hx
      obtain ⟨u, hum, rfl⟩ := List.mem_map.mp hx
      simp only [List.map_cons, List.map_nil, List.mem_singleton]
      exact hfu u hum
    · rw [map_id_eq (fun t => by split <;> rfl)]
      exact hnt
    · intro u' hu'
      rcases husersF u' hu' with ⟨u, hold, hid, -, -⟩ | rfl
      · rw [hid]; exact hvu u hold
      · exact hv
    · intro t'' ht''
      obtain ⟨t, htm, rfl⟩ := List.mem_map.mp ht''
      have : (if vts.contains t.id then
          { t with assignedUser := newId, assignedUserName := name } else t).id = t.id := by
        split <;> rfl
      rw [this]
      exact hvt t htm
    · -- I2
      intro t'' ht'' u' hu'
      obtain ⟨t, htm, rfl⟩ := List.mem_map.mp ht''
      rcases husersF u' hu' with ⟨u, hold, hid, hneu, hpend⟩ | rfl
      · by_cases hvt' : (vts.contains t.id) = true
        · rw [if_pos hvt']
          simp only []
          have htin : t.id ∈ vts := contains_iff_mem.mp hvt'
          constructor
          · intro hmem
            exact absurd ((hpend t.id).mp hmem).2 (fun h => h htin)
          · rintro ⟨he, -⟩
            exact absurd he.symm hneu
        · rw [if_neg hvt']
          have htni : t.id ∉ vts := fun h => hvt' (contains_iff_mem.mpr h)
          rw [hpend t.id]
          rw [hid]
          constructor
          · rintro ⟨hmem, -⟩
            exact (hI2 t htm u hold).mp hmem
          · intro h
            exact ⟨(hI2 t htm u hold).mpr h, htni⟩
      · by_cases hvt' : (vts.contains t.id) = true
        · rw [if_pos hvt']
          simp only []
          have htin : t.id ∈ vts := contains_iff_mem.mp hvt'
          refine iff_of_true htin ⟨?_, hvcomp t htm htin⟩
          trivial
        · rw [if_neg hvt']
          have htni : t.id ∉ vts := fun h => hvt' (contains_iff_mem.mpr h)
          refine iff_of_false htni ?_
          rintro ⟨he, -⟩
          exact hfa t htm he
    · -- I1open
      intro t'' ht'' hcomp
      obtain ⟨t, htm, rfl⟩ := List.mem_map.mp ht''
      by_cases hvt' : (vts.contains t.id) = true
      · rw [if_pos hvt']
        exact Or.inr ⟨_, hnewB, rfl⟩
      · rw [if_neg hvt'] at hcomp ⊢
        rcases hI1 t htm hcomp with h | ⟨u0, hu0, hid0⟩
        · exact Or.inl h
        · obtain ⟨u', hu', hid'⟩ := husersB u0 hu0
          exact Or.inr ⟨u', hu', by rw [hid']; exact hid0⟩

/-- The pointwise effect of the user-side writes of `PUT /api/tasks/:id`:
first the conditional pull from the previous assignee, then the pull or
set-add at the new assignee. -/
def replaceTaskUserUpd (tid : String) (cur : TaskDoc) (na : String) (cb : Bool)
    (u : UserDoc) : UserDoc :=
  let p1 :=
    if (cur.assignedUser != "" && cur.assignedUser != na) && (u.id == cur.assignedUser) then
      u.pendingTasks.filter (fun x => x != tid)
    else u.pendingTasks
  let p2 :=
    if (na != "") && (u.id == na) then
      (if cb then p1.filter (fun x => x != tid) else addToSet p1 tid)
    else p1
  { u with pendingTasks := p2 }

theorem replaceTaskUserUpd_id (tid : String) (cur : TaskDoc) (na : String) (cb : Bool)
    (u : UserDoc) : (replaceTaskUserUpd tid cur na cb u).id = u.id := rfl

theorem replaceTask_users_eq (db : DB) (tid : String) (cur : TaskDoc) (na : String)
    (cb : Bool) :
    (if na != "" then
        if cb then
          (if cur.assignedUser != "" && cur.assignedUser != na then
              db.users.map (fun u =>
                if u.id == cur.assignedUser then
                  { u with pendingTasks := u.pendingTasks.filter (fun x => x != tid) }
                else u)
            else db.users).map (fun u =>
              if u.id == na then
                { u with pendingTasks := u.pendingTasks.filter (fun x => x != tid) }
              else u)
        else
          (if cur.assignedUser != "" && cur.assignedUser != na then
              db.users.map (fun u =>
                if u.id == cur.assignedUser then
                  { u with pendingTasks := u.pendingTasks.filter (fun x => x != tid) }
                else u)
            else db.users).map (fun u =>
              if u.id == na then
                { u with pendingTasks := addToSet u.pendingTasks tid }
              else u)
      else
        (if cur.assignedUser != "" && cur.assignedUser != na then
            db.users.map (fun u =>
              if u.id == cur.assignedUser then
                { u with pendingTasks := u.pendingTasks.filter (fun x => x != tid) }
              else u)
          else db.users)) = db.users.map (replaceTaskUserUpd tid cur na cb) := by
  by_cases hp : (cur.assignedUser != "" && cur.assignedUser != na) = true
  · by_cases hn : (na != "") = true
    · have hpn : cur.assignedUser ≠ na := by
        have := (Bool.and_eq_true _ _).mp hp
        simpa using this.2
      cases hcb : cb with
      | true =>
        rw [if_pos hn, if_pos rfl, if_pos hp, List.map_map]
        refine List.map_congr_left ?_
        intro u hu
        by_cases h1 : (u.id == cur.assignedUser) = true
        · have h2 : ¬(u.id == na) = true := by
            simp only [beq_iff_eq] at h1 ⊢
            rw [h1]
            exact hpn
          simp [replaceTaskUserUpd, Function.comp, hp, hn, h1, h2]
        · by_cases h2 : (u.id == na) = true
          · simp [replaceTaskUserUpd, Function.comp, hp, hn, h1, h2]
          · simp [replaceTaskUserUpd, Function.comp, hp, hn, h1, h2]
      | false =>
        rw [if_pos hn, if_neg (by simp), if_pos hp, List.map_map]
        refine List.map_congr_left ?_
        intro u hu
        by_cases h1 : (u.id == cur.assignedUser) = true
        · have h2 : ¬(u.id == na) = true := by
            simp only [beq_iff_eq] at h1 ⊢
            rw [h1]
            exact hpn
          simp [replaceTaskUserUpd, Function.comp, hp, hn, h1, h2]
        · by_cases h2 : (u.id == na) = true
          · simp [replaceTaskUserUpd, Function.comp, hp, hn, h1, h2]
          · simp [replaceTaskUserUpd, Function.comp, hp, hn, h1, h2]
    · rw [if_neg hn, if_pos hp]
      refine List.map_congr_left ?_
      intro u hu
      by_cases h1 : (u.id == cur.assignedUser) = true
      · simp [replaceTaskUserUpd, hp, hn, h1]
      · simp [replaceTaskUserUpd, hp, hn, h1]
  · by_cases hn : (na != "") = true
    · cases hcb : cb with
      | true =>
        rw [if_pos hn, if_pos rfl, if_neg hp]
        refine List.map_congr_left ?_
        intro u hu
        by_cases h2 : (u.id == na) = true
        · simp [replaceTaskUserUpd, hp, hn, h2]
        · simp [replaceTaskUserUpd, hp, hn, h2]
      | false =>
        rw [if_pos hn, if_neg (by simp), if_neg hp]
        refine List.map_congr_left ?_
        intro u hu
        by_cases h2 : (u.id == na) = true
        · simp [replaceTaskUserUpd, hp, hn, h2]
        · simp [replaceTaskUserUpd, hp, hn, h2]
    · rw [if_neg hn, if_neg hp]
      have : ∀ u ∈ db.users, u = replaceTaskUserUpd tid cur na cb u := by
        intro u hu
        simp [replaceTaskUserUpd, hp, hn]
      calc db.users = db.users.map (fun u => u) := by rw [List.map_id']
        _ = db.users.map (replaceTaskUserUpd tid cur na cb) :=
          List.map_congr_left (fun u hu => this u hu)

theorem replaceTaskUserUpd_mem_ne {tid : String} {cur : TaskDoc} {na : String} {cb : Bool}
    {u : UserDoc} {x : String} (hx : x ≠ tid) :
    x ∈ (replaceTaskUserUpd tid cur na cb u).pendingTasks ↔ x ∈ u.pendingTasks := by
  unfold replaceTaskUserUpd
  simp only []
  split
  · cases cb with
    | true =>
      rw [if_pos (show (true : Bool) = true from rfl)]
      rw [mem_pull_iff]
      split
      · rw [mem_pull_iff]
        exact ⟨fun h => h.1.1, fun h => ⟨⟨h, hx⟩, hx⟩⟩
      · exact ⟨fun h => h.1, fun h => ⟨h, hx⟩⟩
    | false =>
      rw [if_neg (show ¬((false : Bool) = true) from by simp)]
      rw [mem_addToSet_iff]
      split
      · rw [mem_pull_iff]
        exact ⟨fun h => h.elim (fun h' => h'.1) (fun h' => absurd h' hx),
          fun h => Or.inl ⟨h, hx⟩⟩
      · exact ⟨fun h => h.elim id (fun h' => absurd h' hx), fun h => Or.inl h⟩
  · split
    · rw [mem_pull_iff]
      exact ⟨fun h => h.1, fun h => ⟨h, hx⟩⟩
    · exact Iff.rfl

theorem replaceTaskUserUpd_mem_tid_at_na {tid : String} {cur : TaskDoc} {na : String}
    {cb : Bool} {u : UserDoc} (h : ((na != "") && (u.id == na)) = true) :
    tid ∈ (replaceTaskUserUpd tid cur na cb u).pendingTasks ↔ cb = false := by
  unfold replaceTaskUserUpd
  simp only [if_pos h]
  cases cb with
  | true =>
    rw [if_pos (show (true : Bool) = true from rfl)]
    rw [mem_pull_iff]
    constructor
    · rintro ⟨-, hne⟩; exact absurd rfl hne
    · intro hcf; simp at hcf
  | false =>
    rw [if_neg (show ¬((false : Bool) = true) from by simp)]
    rw [mem_addToSet_iff]
    exact ⟨fun _ => rfl, fun _ => Or.inr rfl⟩

theorem replaceTaskUserUpd_mem_tid_not_na {tid : String} {cur : TaskDoc} {na : String}
    {cb : Bool} {u : UserDoc} (h : ¬((na != "") && (u.id == na)) = true) :
    tid ∈ (replaceTaskUserUpd tid cur na cb u).pendingTasks ↔
      (tid ∈ u.pendingTasks ∧
        ¬((cur.assignedUser != "" && cur.assignedUser != na) && (u.id == cur.assignedUser))
          = true) := by
  unfold replaceTaskUserUpd
  simp only [if_neg h]
  split
  case isTrue hq =>
    rw [mem_pull_iff]
    constructor
    · rintro ⟨-, hne⟩; exact absurd rfl hne
    · rintro ⟨-, hnq⟩; exact absurd hq hnq
  case isFalse hq =>
    exact ⟨fun hm => ⟨hm, hq⟩, fun hm => hm.1⟩

theorem replaceTask_commit_inv {db : DB} {tid : String} {req : ReplaceTaskReq}
    {cur : TaskDoc} {na nnm : String} (hInv : StateInv db)
    (hcur : cur ∈ db.tasks) (hcid : cur.id = tid)
    (hres : na = "" ∨ ∃ u0, u0 ∈ db.users ∧ u0.id = na) :
    StateInv (replaceTaskCommit db tid req cur na nnm) := by
  obtain ⟨⟨hnu, hnt, hvu, hvt⟩, hI2, hI1⟩ := hInv
  have huniq : ∀ t ∈ db.tasks, t.id = tid → t = cur :=
    fun t ht he => nodup_inj hnt ht hcur (he.trans hcid.symm)
  have hidT : ∀ t : TaskDoc,
      (if t.id == tid then
        (⟨t.id, req.name.getD "", req.description.getD "", req.deadline.getD 0,
          req.completed.getD false, na,
          if na != "" then nnm else "unassigned", cur.dateCreated⟩ : TaskDoc)
      else t).id = t.id := fun t => by split <;> rfl
  unfold replaceTaskCommit
  simp only []
  rw [replaceTask_users_eq]
  refine ⟨⟨?_, ?_, ?_, ?_⟩, ?_, ?_⟩
  · rw [map_id_eq (replaceTaskUserUpd_id tid cur na (req.completed.getD false))]
    exact hnu
  · rw [map_id_eq hidT]
    exact hnt
  · intro u' hu'
    obtain ⟨u, hu, rfl⟩ := List.mem_map.mp hu'
    rw [replaceTaskUserUpd_id]
    exact hvu u hu
  · intro t'' ht''
    obtain ⟨t, htm, rfl⟩ := List.mem_map.mp ht''
    rw [hidT t]
    exact hvt t htm
  · -- I2
    intro t'' ht'' u' hu'
    obtain ⟨t, htm, rfl⟩ := List.mem_map.mp ht''
    obtain ⟨u, hu, rfl⟩ := List.mem_map.mp hu'
    by_cases h1 : (t.id == tid) = true
    · have htc : t = cur := huniq t htm (beq_iff_eq.mp h1)
      rw [if_pos h1]
      simp only []
      rw [beq_iff_eq.mp h1]
      rw [replaceTaskUserUpd_id]
      by_cases hq : ((na != "") && (u.id == na)) = true
      · rw [replaceTaskUserUpd_mem_tid_at_na hq]
        rw [Bool.and_eq_true, bne_iff_ne, beq_iff_eq] at hq
        constructor
        · intro hcf
          exact ⟨hq.2.symm, hcf⟩
        · rintro ⟨-, hcf⟩
          exact hcf
      · rw [replaceTaskUserUpd_mem_tid_not_na hq]
        have hrhsF : ¬(na = u.id ∧ req.completed.getD false = false) := by
          rintro ⟨hna, -⟩
          apply hq
          rw [Bool.and_eq_true, bne_iff_ne, beq_iff_eq]
          refine ⟨?_, hna.symm⟩
          rw [hna]
          exact isValidId_ne_empty (hvu u hu)
        refine iff_of_false ?_ hrhsF
        rintro ⟨hmem, hnq⟩
        have hass := (hI2 cur hcur u hu).mp (hcid ▸ hmem)
        apply hnq
        rw [Bool.and_eq_true, Bool.and_eq_true, bne_iff_ne, bne_iff_ne, beq_iff_eq]
        have hprevu : cur.assignedUser = u.id := hass.1
        refine ⟨⟨?_, ?_⟩, hprevu.symm⟩
        · rw [hprevu]
          exact isValidId_ne_empty (hvu u hu)
        · intro he
          apply hq
          rw [Bool.and_eq_true, bne_iff_ne, beq_iff_eq]
          have hnau : u.id = na := by rw [← he, hprevu]
          refine ⟨?_, hnau⟩
          rw [← he, hprevu]
          exact isValidId_ne_empty (hvu u hu)
    · rw [if_neg h1]
      have hne : t.id ≠ tid := by simpa using h1
      rw [replaceTaskUserUpd_mem_ne hne, replaceTaskUserUpd_id]
      exact hI2 t htm u hu
  · -- I1open
    intro t'' ht'' hcomp
    obtain ⟨t, htm, rfl⟩ := List.mem_map.mp ht''
    by_cases h1 : (t.id == tid) = true
    · rw [if_pos h1]
      rcases hres with hna | ⟨u0, hu0, hid0⟩
      · exact Or.inl hna
      · exact Or.inr ⟨_, List.mem_map.mpr ⟨u0, hu0, rfl⟩,
          by rw [replaceTaskUserUpd_id]; exact hid0⟩
    · rw [if_neg h1] at hcomp ⊢
      rcases hI1 t htm hcomp with h | ⟨u0, hu0, hid0⟩
      · exact Or.inl h
      · exact Or.inr ⟨_, List.mem_map.mpr ⟨u0, hu0, rfl⟩,
          by rw [replaceTaskUserUpd_id]; exact hid0⟩

theorem replaceUser_commit_inv {db : DB} {uid name email : String} {vts : List String}
    {origDate : Nat} {requested : List String} (hInv : StateInv db)
    (huid : isValidId uid = true) (hu0 : ∃ u0, u0 ∈ db.users ∧ u0.id = uid)
    (hvts : filterPendingTasks db requested = .ok vts) :
    StateInv (replaceUserCommit db uid name email vts origDate) := by
  obtain ⟨⟨hnu, hnt, hvu, hvt⟩, hI2, hI1⟩ := hInv
  have hvmem := filterPendingTasks_ok_iff hvts
  have hvcomp : ∀ t ∈ db.tasks, t.id ∈ vts → t.completed = false := by
    intro t htm hid
    obtain ⟨t0, ht0, hid0, -, hc0⟩ := (hvmem t.id).mp hid
    have : t0 = t := nodup_inj hnt ht0 htm hid0
    rw [← this]
    exact hc0
  have hidU : ∀ t : TaskDoc,
      (if t.assignedUser == uid && !t.completed then
        { t with assignedUser := "", assignedUserName := "unassigned" }
      else t).id = t.id := fun t => by split <;> rfl
  have hcompU : ∀ t : TaskDoc,
      (if t.assignedUser == uid && !t.completed then
        { t with assignedUser := "", assignedUserName := "unassigned" }
      else t).completed = t.completed := fun t => by split <;> rfl
  have hidA : ∀ t : TaskDoc,
      (if vts.contains t.id then
        { t with assignedUser := uid, assignedUserName := name }
      else t).id = t.id := fun t => by split <;> rfl
  have hidP : ∀ u : UserDoc,
      (if !(u.id == uid) && u.pendingTasks.any (fun x => vts.contains x) then
        { u with pendingTasks := u.pendingTasks.filter (fun x => !vts.contains x) }
      else u).id = u.id := fun u => by split <;> rfl
  have hidS : ∀ u : UserDoc, u.id ≠ uid →
      (if u.id == uid then (⟨uid, name, email, vts, origDate⟩ : UserDoc) else u).id
        = u.id := fun u hne => by rw [if_neg (by simp [hne])]
  have hidS' : ∀ u : UserDoc,
      (if u.id == uid then (⟨uid, name, email, vts, origDate⟩ : UserDoc) else u).id
        = u.id := by
    intro u
    by_cases h : (u.id == uid) = true
    · rw [if_pos h]
      exact (beq_iff_eq.mp h).symm
    · rw [if_neg h]
  unfold replaceUserCommit
  simp only []
  by_cases hvE : vts.isEmpty = true
  · -- empty filtered list: no reassignment writes
    rw [if_neg (by simp [hvE]), if_neg (by simp [hvE])]
    have hvnil : vts = [] := List.isEmpty_iff.mp hvE
    have husersF : ∀ u' : UserDoc,
        u' ∈ db.users.map (fun u : UserDoc =>
          if u.id == uid then (⟨uid, name, email, vts, origDate⟩ : UserDoc) else u) →
          (∃ u ∈ db.users, u'.id = u.id ∧ u'.id ≠ uid ∧
            u'.pendingTasks = u.pendingTasks) ∨
            u' = ⟨uid, name, email, vts, origDate⟩ := by
      intro u' hu'
      obtain ⟨u, hu, rfl⟩ := List.mem_map.mp hu'
      by_cases h : (u.id == uid) = true
      · rw [if_pos h]
        exact Or.inr rfl
      · rw [if_neg h]
        exact Or.inl ⟨u, hu, rfl, by simpa using h, rfl⟩
    refine ⟨⟨?_, ?_, ?_, ?_⟩, ?_, ?_⟩
    · rw [map_id_eq hidS']
      exact hnu
    · rw [map_id_eq hidU]
      exact hnt
    · intro u' hu'
      rcases husersF u' hu' with ⟨u, hu, hid, -, -⟩ | rfl
      · rw [hid]; exact hvu u hu
      · exact huid
    · intro t'' ht''
      obtain ⟨t, htm, rfl⟩ := List.mem_map.mp ht''
      rw [hidU t]
      exact hvt t htm
    · -- I2
      intro t'' ht'' u' hu'
      obtain ⟨t, htm, rfl⟩ := List.mem_map.mp ht''
      rcases husersF u' hu' with ⟨u, hu, hid, hne, hpend⟩ | rfl
      · by_cases hc1 : (t.assignedUser == uid && !t.completed) = true
        · rw [if_pos hc1]
          simp only []
          rw [Bool.and_eq_true, beq_iff_eq, Bool.not_eq_true'] at hc1
          rw [hpend, hid]
          constructor
          · intro hmem
            have h2 := (hI2 t htm u hu).mp hmem
            have huidu : uid = u.id := by rw [← hc1.1]; exact h2.1
            exact absurd huidu.symm (fun hh => hne (hid.trans hh))
          · rintro ⟨he, -⟩
            exact absurd he.symm (isValidId_ne_empty (hvu u hu))
        · rw [if_neg hc1]
          rw [hpend, hid]
          exact hI2 t htm u hu
      · by_cases hc1 : (t.assignedUser == uid && !t.completed) = true
        · rw [if_pos hc1]
          simp only [hvnil, List.not_mem_nil, false_iff, not_and]
          intro he
          exact absurd he.symm (isValidId_ne_empty huid)
        · rw [if_neg hc1]
          simp only [hvnil, List.not_mem_nil, false_iff, not_and]
          intro he hcf
          rw [Bool.and_eq_true, beq_iff_eq, Bool.not_eq_true'] at hc1
          exact hc1 ⟨he, hcf⟩
    · -- I1open
      intro t'' ht'' hcomp
      obtain ⟨t, htm, rfl⟩ := List.mem_map.mp ht''
      by_cases hc1 : (t.assignedUser == uid && !t.completed) = true
      · rw [if_pos hc1]
        exact Or.inl rfl
      · rw [if_neg hc1] at hcomp ⊢
        rcases hI1 t htm hcomp with h | ⟨u0, hu0m, hid0⟩
        · exact Or.inl h
        · exact Or.inr ⟨_, List.mem_map.mpr ⟨u0, hu0m, rfl⟩, by rw [hidS']; exact hid0⟩
  · -- non-empty filtered list
    rw [if_pos (by simp [hvE]), if_pos (by simp [hvE])]
    have husersF : ∀ u' : UserDoc,
        u' ∈ (db.users.map (fun u : UserDoc =>
            if !(u.id == uid) && u.pendingTasks.any (fun x => vts.contains x) then
              { u with pendingTasks := u.pendingTasks.filter (fun x => !vts.contains x) }
            else u)).map (fun u : UserDoc =>
            if u.id == uid then (⟨uid, name, email, vts, origDate⟩ : UserDoc) else u) →
          (∃ u ∈ db.users, u'.id = u.id ∧ u'.id ≠ uid ∧
            (∀ x, x ∈ u'.pendingTasks ↔ x ∈ u.pendingTasks ∧ x ∉ vts)) ∨
            u' = ⟨uid, name, email, vts, origDate⟩ := by
      intro u' hu'
      obtain ⟨u1, hu1, rfl⟩ := List.mem_map.mp hu'
      obtain ⟨u, hu, rfl⟩ := List.mem_map.mp hu1
      by_cases h : (u.id == uid) = true
      · have hc1 : ¬(!(u.id == uid) && u.pendingTasks.any (fun x => vts.contains x))
            = true := by
          rw [Bool.and_eq_true]
          rintro ⟨h1, -⟩
          rw [h] at h1
          cases h1
        rw [if_neg hc1]
        rw [if_pos h]
        exact Or.inr rfl
      · have hneu : u.id ≠ uid := by simpa using h
        by_cases hany : (u.pendingTasks.any (fun x => vts.contains x)) = true
        · have hc1 : (!(u.id == uid) && u.pendingTasks.any (fun x => vts.contains x))
              = true := by
            rw [Bool.and_eq_true]
            exact ⟨by simp [hneu], hany⟩
          rw [if_pos hc1]
          have hc2 : ¬(({ u with pendingTasks :=
              u.pendingTasks.filter (fun x => !vts.contains x) } : UserDoc).id == uid)
              = true := by simp [hneu]
          rw [if_neg hc2]
          exact Or.inl ⟨u, hu, rfl, hneu, fun x => mem_pullAll_iff⟩
        · have hc1 : ¬(!(u.id == uid) && u.pendingTasks.any (fun x => vts.contains x))
              = true := by
            rw [Bool.and_eq_true]
            rintro ⟨-, h2⟩
            exact hany h2
          rw [if_neg hc1]
          rw [if_neg h]
          refine Or.inl ⟨u, hu, rfl, hneu, ?_⟩
          intro x
          constructor
          · intro hx
            refine ⟨hx, fun hxv => ?_⟩
            exact hany (List.any_eq_true.mpr ⟨x, hx, contains_iff_mem.mpr hxv⟩)
          · exact fun h => h.1
    have husersB : ∀ u ∈ db.users, ∃ u',
        u' ∈ (db.users.map (fun u : UserDoc =>
            if !(u.id == uid) && u.pendingTasks.any (fun x => vts.contains x) then
              { u with pendingTasks := u.pendingTasks.filter (fun x => !vts.contains x) }
            else u)).map (fun u : UserDoc =>
            if u.id == uid then (⟨uid, name, email, vts, origDate⟩ : UserDoc) else u) ∧
          u'.id = u.id := by
      intro u hum
      refine ⟨_, List.mem_map.mpr ⟨_, List.mem_map.mpr ⟨u, hum, rfl⟩, rfl⟩, ?_⟩
      rw [hidS', hidP]
    have hnewB : (⟨uid, name, email, vts, origDate⟩ : UserDoc) ∈
        (db.users.map (fun u : UserDoc =>
            if !(u.id == uid) && u.pendingTasks.any (fun x => vts.contains x) then
              { u with pendingTasks := u.pendingTasks.filter (fun x => !vts.contains x) }
            else u)).map (fun u : UserDoc =>
            if u.id == uid then (⟨uid, name, email, vts, origDate⟩ : UserDoc) else u) := by
      obtain ⟨u0, hu0m, hid0⟩ := hu0
      have hc1 : ¬(!(u0.id == uid) && u0.pendingTasks.any (fun x => vts.contains x))
          = true := by
        rw [Bool.and_eq_true]
        rintro ⟨h1, -⟩
        rw [hid0] at h1
        simp at h1
      refine List.mem_map.mpr ⟨_, List.mem_map.mpr ⟨u0, hu0m, rfl⟩, ?_⟩
      rw [if_neg hc1]
      rw [if_pos (by simp [hid0])]
    refine ⟨⟨?_, ?_, ?_, ?_⟩, ?_, ?_⟩
    · rw [map_id_eq hidS', map_id_eq hidP]
      exact hnu
    · rw [map_id_eq hidA, map_id_eq hidU]
      exact hnt
    · intro u' hu'
      rcases husersF u' hu' with ⟨u, hu, hid, -, -⟩ | rfl
      · rw [hid]; exact hvu u hu
      · exact huid
    · intro t'' ht''
      obtain ⟨t1, ht1, rfl⟩ := List.mem_map.mp ht''
      obtain ⟨t, htm, rfl⟩ := List.mem_map.mp ht1
      rw [hidA, hidU]
      exact hvt t htm
    · -- I2
      intro t'' ht'' u' hu'
      obtain ⟨t1, ht1, rfl⟩ := List.mem_map.mp ht''
      obtain ⟨t, htm, rfl⟩ := List.mem_map.mp ht1
      have hid1 : (if t.assignedUser == uid && !t.completed then
          { t with assignedUser := "", assignedUserName := "unassigned" }
        else t).id = t.id := hidU t
      rcases husersF u' hu' with ⟨u, hu, hid, hneu, hpend⟩ | rfl
      · by_cases hc2 : (vts.contains ((if t.assignedUser == uid && !t.completed then
            { t with assignedUser := "", assignedUserName := "unassigned" }
          else t) : TaskDoc).id) = true
        · rw [if_pos hc2]
          simp only []
          rw [hid1] at hc2
          have htin : t.id ∈ vts := contains_iff_mem.mp hc2
          rw [hid1]
          constructor
          · intro hmem
            exact absurd ((hpend t.id).mp hmem).2 (fun hneg => hneg htin)
          · rintro ⟨he, -⟩
            exact absurd he.symm hneu
        · rw [if_neg hc2]
          rw [hid1] at hc2
          have htni : t.id ∉ vts := fun hmem => hc2 (contains_iff_mem.mpr hmem)
          by_cases hc1 : (t.assignedUser == uid && !t.completed) = true
          · rw [if_pos hc1]
            simp only []
            rw [hpend t.id, hid]
            rw [Bool.and_eq_true, beq_iff_eq, Bool.not_eq_true'] at hc1
            constructor
            · rintro ⟨hmem, -⟩
              have h2 := (hI2 t htm u hu).mp hmem
              have huidu : uid = u.id := by rw [← hc1.1]; exact h2.1
              exact absurd (hid.trans huidu.symm) hneu
            · rintro ⟨he, -⟩
              exact absurd he.symm (isValidId_ne_empty (hvu u hu))
          · rw [if_neg hc1]
            rw [hpend t.id, hid]
            constructor
            · rintro ⟨hmem, -⟩
              exact (hI2 t htm u hu).mp hmem
            · intro hr
              exact ⟨(hI2 t htm u hu).mpr hr, htni⟩
      · by_cases hc2 : (vts.contains ((if t.assignedUser == uid && !t.completed then
            { t with assignedUser := "", assignedUserName := "unassigned" }
          else t) : TaskDoc).id) = true
        · rw [if_pos hc2]
          simp only []
          rw [hid1] at hc2
          have htin : t.id ∈ vts := contains_iff_mem.mp hc2
          rw [hid1]
          refine iff_of_true htin ⟨?_, ?_⟩
          · trivial
          show (if t.assignedUser == uid && !t.completed then
            { t with assignedUser := "", assignedUserName := "unassigned" }
          else t).completed = false
          rw [hcompU t]
          exact hvcomp t htm htin
        · rw [if_neg hc2]
          rw [hid1] at hc2
          have htni : t.id ∉ vts := fun hmem => hc2 (contains_iff_mem.mpr hmem)
          refine iff_of_false (by rw [hid1]; exact htni) ?_
          by_cases hc1 : (t.assignedUser == uid && !t.completed) = true
          · rw [if_pos hc1]
            rintro ⟨he, -⟩
            exact absurd he.symm (isValidId_ne_empty huid)
          · rw [if_neg hc1]
            rintro ⟨he, hcf⟩
            rw [Bool.and_eq_true, beq_iff_eq, Bool.not_eq_true'] at hc1
            exact hc1 ⟨he, hcf⟩
    · -- I1open
      intro t'' ht'' hcomp
      obtain ⟨t1, ht1, rfl⟩ := List.mem_map.mp ht''
      obtain ⟨t, htm, rfl⟩ := List.mem_map.mp ht1
      by_cases hc2 : (vts.contains ((if t.assignedUser == uid && !t.completed then
          { t with assignedUser := "", assignedUserName := "unassigned" }
        else t) : TaskDoc).id) = true
      · rw [if_pos hc2]
        exact Or.inr ⟨_, hnewB, rfl⟩
      · rw [if_neg hc2] at hcomp ⊢
        by_cases hc1 : (t.assignedUser == uid && !t.completed) = true
        · rw [if_pos hc1] at hcomp ⊢
          exact Or.inl rfl
        · rw [if_neg hc1] at hcomp ⊢
          rcases hI1 t htm hcomp with h | ⟨u0, hu0m, hid0⟩
          · exact Or.inl h
          · obtain ⟨u', hu', hid'⟩ := husersB u0 hu0m
            exact Or.inr ⟨u', hu', by rw [hid']; exact hid0⟩

theorem stateInv_empty : StateInv ⟨[], []⟩ := by
  refine ⟨⟨List.nodup_nil, List.nodup_nil, ?_, ?_⟩, ?_, ?_⟩
  · intro u hu; cases hu
  · intro t ht; cases ht
  · intro t ht; cases ht
  · intro t ht; cases ht

theorem reachable_inv : ∀ {db : DB}, Reachable db → StateInv db := by
  intro db h
  induction h with
  | init => exact stateInv_empty
  | stepCreateUser req now newId failAt dk hr hv hfresh ih =>
    rename_i db0
    unfold createUser
    cases hb : createUserBody db0 req now newId failAt dk with
    | error e => exact ih
    | ok r =>
      obtain ⟨db', resp⟩ := r
      rcases createUserBody_ok hb with ⟨h1, -⟩ | ⟨vts, hflt, h2, -⟩
      · rw [h1]; exact ih
      · rw [h2]; exact createUser_commit_inv ih hv hfresh hflt
  | stepReplaceUser uid req failAt dk hr ih =>
    rename_i db0
    unfold replaceUser
    cases hb : replaceUserBody db0 uid req failAt dk with
    | error e => exact ih
    | ok r =>
      obtain ⟨db', resp⟩ := r
      rcases replaceUserBody_ok hb with ⟨h1, -⟩ | ⟨user, vts, hfind, hflt, h2, -⟩
      · rw [h1]; exact ih
      · rw [h2]
        obtain ⟨hvid, humem, huid⟩ := findUserById_ok_some hfind
        exact replaceUser_commit_inv ih hvid ⟨user, humem, huid⟩ hflt
  | stepDeleteUser uid failAt hr ih =>
    rename_i db0
    unfold deleteUser
    cases hb : deleteUserBody db0 uid failAt with
    | error e => exact ih
    | ok r =>
      obtain ⟨db', resp⟩ := r
      rcases deleteUserBody_ok hb with ⟨h1, -⟩ | ⟨u, hfind, h2, -⟩
      · rw [h1]; exact ih
      · rw [h2]; exact deleteUser_commit_inv ih
  | stepCreateTask req now newId failAt hr hv hfresh ih =>
    rename_i db0
    unfold createTask
    cases hb : createTaskBody db0 req now newId failAt with
    | error e => exact ih
    | ok r =>
      obtain ⟨db', resp⟩ := r
      rcases createTaskBody_ok hb with ⟨h1, -⟩ | ⟨aid, nm, hresv, h2, -⟩
      · rw [h1]; exact ih
      · rw [h2]
        rcases resolveAssignee_ok hresv with ⟨hid, -⟩ | ⟨-, u0, hu0, hid0, -⟩
        · exact createTask_commit_inv ih hv hfresh (Or.inl hid)
        · exact createTask_commit_inv ih hv hfresh (Or.inr ⟨u0, hu0, hid0⟩)
  | stepReplaceTask tid req failAt hr ih =>
    rename_i db0
    unfold replaceTask
    cases hb : replaceTaskBody db0 tid req failAt with
    | error e => exact ih
    | ok r =>
      obtain ⟨db', resp⟩ := r
      rcases replaceTaskBody_ok hb with ⟨h1, -⟩ | ⟨h1, -⟩ | ⟨cur, na, nnm, hfind, hresv, h2, -⟩
      · rw [h1]; exact ih
      · rw [h1]; exact ih
      · rw [h2]
        obtain ⟨-, hcmem, hcid⟩ := findTaskById_ok_some hfind
        rcases resolveAssignee_ok hresv with ⟨hid, -⟩ | ⟨-, u0, hu0, hid0, -⟩
        · exact replaceTask_commit_inv ih hcmem hcid (Or.inl hid)
        · exact replaceTask_commit_inv ih hcmem hcid (Or.inr ⟨u0, hu0, hid0⟩)
  | stepDeleteTask tid failAt hr ih =>
    rename_i db0
    unfold deleteTask
    cases hb : deleteTaskBody db0 tid failAt with
    | error e => exact ih
    | ok r =>
      obtain ⟨db', resp⟩ := r
      rcases deleteTaskBody_ok hb with ⟨h1, -⟩ | ⟨t, hfind, h2, -⟩
      · rw [h1]; exact ih
      · rw [h2]; exact deleteTask_commit_inv ih

/-! ## Locating documents in updated collections -/

theorem find?_eq_of_nodup {α : Type} {idf : α → String} {l : List α}
    (hn : (l.map idf).Nodup) {t : α} (ht : t ∈ l) :
    l.find? (fun x => idf x == idf t) = some t := by
  induction l with
  | nil => cases ht
  | cons h tl ih =>
    rw [List.map_cons, List.nodup_cons] at hn
    by_cases hh : (idf h == idf t) = true
    · have : h = t := by
        rcases List.mem_cons.mp ht with rfl | htl
        · rfl
        · exact absurd (List.mem_map.mpr ⟨t, htl, (beq_iff_eq.mp hh).symm⟩) hn.1
      rw [@List.find?_cons_of_pos _ (fun x => idf x == idf t) h tl hh, this]
    · have htl : t ∈ tl := by
        rcases List.mem_cons.mp ht with rfl | htl
        · exact absurd (beq_iff_eq.mpr rfl) hh
        · exact htl
      rw [@List.find?_cons_of_neg _ (fun x => idf x == idf t) h tl (by simpa using hh)]
      exact ih hn.2 htl

theorem find?_map_upd {α : Type} {idf : α → String} {g : α → α}
    (hid : ∀ x, idf (g x) = idf x) {l : List α} (hn : (l.map idf).Nodup)
    {t : α} (ht : t ∈ l) :
    (l.map g).find? (fun x => idf x == idf t) = some (g t) := by
  rw [List.find?_map]
  have hcong : ((fun x => idf x == idf t) ∘ g) = (fun x => idf x == idf t) :=
    funext fun x => by simp [Function.comp, hid x]
  rw [hcong, find?_eq_of_nodup hn ht]
  rfl

theorem find?_append_of_none {α : Type} {p : α → Bool} {l₁ l₂ : List α}
    (h : ∀ x ∈ l₁, p x = false) :
    (l₁ ++ l₂).find? p = l₂.find? p := by
  induction l₁ with
  | nil => rfl
  | cons a tl ih =>
    rw [List.cons_append, @List.find?_cons_of_neg _ p a (tl ++ l₂)
      (by simp [h a (List.mem_cons_self a tl)])]
    exact ih (fun x hx => h x (List.mem_cons_of_mem a hx))

/-! ## Concrete fixtures: a small reachable store used as witness input -/

def annId : String := "aaaaaaaaaaaaaaaaaaaaaaaa"

def t1Id : String := "cccccccccccccccccccccccc"

def t2Id : String := "dddddddddddddddddddddddd"

def annReq : CreateUserReq := ⟨some "Ann", some "ann@x.com", some [], none⟩

def t1Req : CreateTaskReq := ⟨some "T1", none, some 9, some annId, none, some false⟩

def t2Req : CreateTaskReq := ⟨some "T2", none, some 9, some annId, none, some true⟩

/-- The store after creating the user Ann. -/
def dbFix1 : DB := (createUser ⟨[], []⟩ annReq 5 annId none false).1

/-- … then creating task T1 assigned to Ann, not completed. -/
def dbFix2 : DB := (createTask dbFix1 t1Req 6 t1Id none).1

/-- … then creating task T2 assigned to Ann, already completed. -/
def dbFix3 : DB := (createTask dbFix2 t2Req 7 t2Id none).1

/-- … then deleting Ann. -/
def dbFix4 : DB := (deleteUser dbFix3 annId none).1

theorem reach_dbFix1 : Reachable dbFix1 :=
  Reachable.stepCreateUser annReq 5 annId none false Reachable.init
    (by decide) (by decide)

theorem reach_dbFix2 : Reachable dbFix2 :=
  Reachable.stepCreateTask t1Req 6 t1Id none reach_dbFix1 (by decide) (by decide)

theorem reach_dbFix3 : Reachable dbFix3 :=
  Reachable.stepCreateTask t2Req 7 t2Id none reach_dbFix2 (by decide) (by decide)

theorem reach_dbFix4 : Reachable dbFix4 :=
  Reachable.stepDeleteUser annId none reach_dbFix3

/-! ## The claims -/

/-- C1: for every Task T and every User U, after every successful mutating
operation (create/replace/delete of a User or a Task, starting from the
empty store), the id of T is in U's pending-task set iff T's assignee-id
equals U's identity and T's completed flag is false. -/
theorem C1_pending_set_invariant (db : DB) (h : Reachable db) :
    ∀ t ∈ db.tasks, ∀ u ∈ db.users,
      (t.id ∈ u.pendingTasks ↔ (t.assignedUser = u.id ∧ t.completed = false)) :=
  (reachable_inv h).2.1

theorem C1_pending_set_invariant_witness :
    Reachable dbFix3 ∧
      (∀ t ∈ dbFix3.tasks, ∀ u ∈ dbFix3.users,
        (t.id ∈ u.pendingTasks ↔ (t.assignedUser = u.id ∧ t.completed = false))) :=
  ⟨reach_dbFix3, C1_pending_set_invariant dbFix3 reach_dbFix3⟩

/-- C3 counterexample: deleting Ann while the completed task T2 is still
assigned to her succeeds (204) yet leaves T2's assignee-id pointing at the
deleted user, so invariant I1 does not hold for completed tasks. -/
theorem C3_dangling_assignee_counterexample :
    Reachable dbFix4 ∧ (deleteUser dbFix3 annId none).2.status = 204 ∧
      (findTask dbFix4 t2Id).map TaskDoc.assignedUser = some annId ∧
      findUser dbFix4 annId = none ∧ annId ≠ "" :=
  ⟨reach_dbFix4, by decide, by decide, by decide, by decide⟩

/-- C3 amended: after every successful operation, every Task whose completed
flag is false has an assignee-id that is either empty or the identity of an
existing User; a completed Task may keep a dangling assignee-id after its
User is deleted. -/
theorem C3_open_task_assignee_exists (db : DB) (h : Reachable db) :
    ∀ t ∈ db.tasks, t.completed = false →
      t.assignedUser = "" ∨ ∃ u ∈ db.users, u.id = t.assignedUser :=
  (reachable_inv h).2.2

theorem C3_open_task_assignee_exists_witness :
    Reachable dbFix4 ∧
      (∀ t ∈ dbFix4.tasks, t.completed = false →
        t.assignedUser = "" ∨ ∃ u ∈ dbFix4.users, u.id = t.assignedUser) :=
  ⟨reach_dbFix4, C3_open_task_assignee_exists dbFix4 reach_dbFix4⟩

/-- C9: every mutating route is atomic: whatever the request, the fault
schedule, or an injected duplicate-key failure does, the route either leaves
the store exactly unchanged or answers its success status (the commit). -/
theorem C9_transaction_atomicity :
    (∀ (db : DB) req now newId f dk,
      (createUser db req now newId f dk).1 = db ∨
        (createUser db req now newId f dk).2.status = 201) ∧
    (∀ (db : DB) uid req f dk,
      (replaceUser db uid req f dk).1 = db ∨
        (replaceUser db uid req f dk).2.status = 200) ∧
    (∀ (db : DB) uid f,
      (deleteUser db uid f).1 = db ∨ (deleteUser db uid f).2.status = 204) ∧
    (∀ (db : DB) req now newId f,
      (createTask db req now newId f).1 = db ∨
        (createTask db req now newId f).2.status = 201) ∧
    (∀ (db : DB) tid req f,
      (replaceTask db tid req f).1 = db ∨
        (replaceTask db tid req f).2.status = 200) ∧
    (∀ (db : DB) tid f,
      (deleteTask db tid f).1 = db ∨ (deleteTask db tid f).2.status = 204) :=
  ⟨createUser_atomic, replaceUser_atomic, deleteUser_atomic,
    createTask_atomic, replaceTask_atomic, deleteTask_atomic⟩

/-- C10: with no numeric limit parameter supplied, the task listing applies
the default limit 100 (it returns the first 100 matching rows), while the
user listing applies no limit and returns every matching row. -/
theorem C10_default_limits :
    (∀ (db : DB) (wh : TaskDoc → Bool) (skip : Option Nat),
      getTasksList db wh skip none = ((db.tasks.filter wh).drop (skip.getD 0)).take 100 ∧
        (getTasksList db wh skip none).length ≤ 100) ∧
    (∀ (db : DB) (wh : UserDoc → Bool) (skip : Option Nat),
      getUsersList db wh skip none = (db.users.filter wh).drop (skip.getD 0)) := by
  constructor
  · intro db wh skip
    have hmain : getTasksList db wh skip none
        = ((db.tasks.filter wh).drop (skip.getD 0)).take 100 := by
      unfold getTasksList
      simp only []
      by_cases hs : ((skip.getD 0) != 0) = true
      · rw [if_pos hs, if_pos (by decide)]
        rfl
      · rw [if_neg hs, if_pos (by decide)]
        have h0 : skip.getD 0 = 0 := by simpa using hs
        rw [h0, List.drop_zero]
        rfl
    refine ⟨hmain, ?_⟩
    rw [hmain]
    exact List.length_take_le _ _
  · intro db wh skip
    unfold getUsersList
    simp only []
    by_cases hs : ((skip.getD 0) != 0) = true
    · rw [if_pos hs, if_neg (by decide)]
    · rw [if_neg hs, if_neg (by decide)]
      have h0 : skip.getD 0 = 0 := by simpa using hs
      rw [h0, List.drop_zero]

/-- C8 counterexample: a malformed direct identifier is answered with the
not-found classification (404 with a not-found message), not with the 400
validation-failure classification the spec assigns to malformed
identifiers. -/
theorem C8_malformed_id_counterexample :
    getUserById ⟨[], []⟩ "x" = ⟨404, "User not found"⟩ ∧
      replaceTask dbFix2 "x" ⟨some "T1", none, some 9, some "", none, some false, none⟩
        none = (dbFix2, ⟨404, "Task not found"⟩) ∧
      deleteUser ⟨[], []⟩ "x" none = (⟨[], []⟩, ⟨404, "User not found"⟩) ∧
      (404 : Nat) ≠ 400 :=
  ⟨by decide, by decide, by decide, by decide⟩

/-- C8 amended: a malformed identifier on any directly addressed route (get,
replace or delete by id) raises a CastError that the route's catch block
classifies as not-found (404), before any write and with the prior state
returned unchanged. -/
theorem C8_malformed_id_not_found (db : DB) (id : String) (req : ReplaceUserReq)
    (reqT : ReplaceTaskReq) (f : Option Nat) (dk : Bool)
    (hv : isValidId id = false) :
    getUserById db id = ⟨404, "User not found"⟩ ∧
      getTaskById db id = ⟨404, "Task not found"⟩ ∧
      replaceUser db id req f dk = (db, ⟨404, "User not found"⟩) ∧
      deleteUser db id f = (db, ⟨404, "User not found"⟩) ∧
      replaceTask db id reqT f = (db, ⟨404, "Task not found"⟩) ∧
      deleteTask db id f = (db, ⟨404, "Task not found"⟩) := by
  have hfu : findUserById db id = .error .castError := by
    unfold findUserById
    rw [if_neg (by simp [hv])]
  have hft : findTaskById db id = .error .castError := by
    unfold findTaskById
    rw [if_neg (by simp [hv])]
  refine ⟨?_, ?_, ?_, ?_, ?_, ?_⟩
  · unfold getUserById; rw [hfu]
  · unfold getTaskById; rw [hft]
  · unfold replaceUser replaceUserBody; rw [hfu]; rfl
  · unfold deleteUser deleteUserBody; rw [hfu]; rfl
  · unfold replaceTask replaceTaskBody; rw [hft]; rfl
  · unfold deleteTask deleteTaskBody; rw [hft]; rfl

theorem C8_malformed_id_not_found_witness :
    isValidId "x" = false ∧
      (getUserById dbFix2 "x" = ⟨404, "User not found"⟩ ∧
        getTaskById dbFix2 "x" = ⟨404, "Task not found"⟩ ∧
        replaceUser dbFix2 "x" ⟨some "A", some "a@x", some [], none⟩ none false
          = (dbFix2, ⟨404, "User not found"⟩) ∧
        deleteUser dbFix2 "x" none = (dbFix2, ⟨404, "User not found"⟩) ∧
        replaceTask dbFix2 "x" ⟨some "T", none, some 9, some "", none, some false, none⟩
          none = (dbFix2, ⟨404, "Task not found"⟩) ∧
        deleteTask dbFix2 "x" none = (dbFix2, ⟨404, "Task not found"⟩)) :=
  ⟨by decide, C8_malformed_id_not_found dbFix2 "x" ⟨some "A", some "a@x", some [], none⟩
    ⟨some "T", none, some 9, some "", none, some false, none⟩ none false (by decide)⟩

theorem findUserById_ok_findUser {db : DB} {uid : String} {o : Option UserDoc}
    (h : findUserById db uid = .ok o) : findUser db uid = o := by
  unfold findUserById at h
  split at h
  · injection h
  · cases h

theorem findTaskById_ok_findTask {db : DB} {tid : String} {o : Option TaskDoc}
    (h : findTaskById db tid = .ok o) : findTask db tid = o := by
  unfold findTaskById at h
  split at h
  · injection h
  · cases h

theorem hidS_generic (uid name email : String) (vts : List String) (origDate : Nat) :
    ∀ x : UserDoc,
      ((if x.id == uid then (⟨uid, name, email, vts, origDate⟩ : UserDoc) else x) : UserDoc).id
        = x.id := by
  intro x
  by_cases h : (x.id == uid) = true
  · rw [if_pos h]
    exact (beq_iff_eq.mp h).symm
  · rw [if_neg h]

theorem replaceUser_commit_findUser {db : DB} {uid name email : String}
    {vts : List String} {origDate : Nat} {u0 : UserDoc}
    (hnu : (db.users.map UserDoc.id).Nodup) (hu0 : u0 ∈ db.users) (hid0 : u0.id = uid) :
    findUser (replaceUserCommit db uid name email vts origDate) uid
      = some ⟨uid, name, email, vts, origDate⟩ := by
  unfold replaceUserCommit findUser
  simp only []
  by_cases hvE : vts.isEmpty = true
  · rw [if_neg (by simp [hvE])]
    have h1 := @find?_map_upd UserDoc UserDoc.id
      (fun u => if u.id == uid then (⟨uid, name, email, vts, origDate⟩ : UserDoc) else u)
      (hidS_generic uid name email vts origDate) db.users hnu u0 hu0
    rw [hid0] at h1
    rw [h1]
    simp only []
    rw [if_pos (show (u0.id == uid) = true by simp [hid0])]
  · rw [if_pos (by simp [hvE])]
    have hg1id : ∀ u : UserDoc,
        ((if !(u.id == uid) && u.pendingTasks.any (fun x => vts.contains x) then
          { u with pendingTasks := u.pendingTasks.filter (fun x => !vts.contains x) }
        else u) : UserDoc).id = u.id := fun u => by split <;> rfl
    have hn1 : ((db.users.map (fun u =>
        if !(u.id == uid) && u.pendingTasks.any (fun x => vts.contains x) then
          { u with pendingTasks := u.pendingTasks.filter (fun x => !vts.contains x) }
        else u)).map UserDoc.id).Nodup := by
      rw [map_id_eq hg1id]
      exact hnu
    have hmem1 : (if !(u0.id == uid) && u0.pendingTasks.any (fun x => vts.contains x) then
        { u0 with pendingTasks := u0.pendingTasks.filter (fun x => !vts.contains x) }
      else u0) ∈ db.users.map (fun u =>
        if !(u.id == uid) && u.pendingTasks.any (fun x => vts.contains x) then
          { u with pendingTasks := u.pendingTasks.filter (fun x => !vts.contains x) }
        else u) := List.mem_map.mpr ⟨u0, hu0, rfl⟩
    have h1 := @find?_map_upd UserDoc UserDoc.id
      (fun u => if u.id == uid then (⟨uid, name, email, vts, origDate⟩ : UserDoc) else u)
      (hidS_generic uid name email vts origDate)
      (db.users.map (fun u =>
        if !(u.id == uid) && u.pendingTasks.any (fun x => vts.contains x) then
          { u with pendingTasks := u.pendingTasks.filter (fun x => !vts.contains x) }
        else u)) hn1
      (if !(u0.id == uid) && u0.pendingTasks.any (fun x => vts.contains x) then
        { u0 with pendingTasks := u0.pendingTasks.filter (fun x => !vts.contains x) }
      else u0) hmem1
    rw [hg1id u0, hid0] at h1
    rw [h1]
    simp only []
    rw [if_neg (show ¬(!(uid == uid)
      && u0.pendingTasks.any (fun x => vts.contains x)) = true by simp)]
    rw [if_pos (show (u0.id == uid) = true by simp [hid0])]

theorem replaceTask_commit_findTask {db : DB} {tid : String} {req : ReplaceTaskReq}
    {cur : TaskDoc} {na nnm : String} (hnt : (db.tasks.map TaskDoc.id).Nodup)
    (hcur : cur ∈ db.tasks) (hcid : cur.id = tid) :
    findTask (replaceTaskCommit db tid req cur na nnm) tid
      = some ⟨tid, req.name.getD "", req.description.getD "", req.deadline.getD 0,
          req.completed.getD false, na, if na != "" then nnm else "unassigned",
          cur.dateCreated⟩ := by
  unfold replaceTaskCommit findTask
  simp only []
  have hidT : ∀ t : TaskDoc,
      ((if t.id == tid then
        (⟨t.id, req.name.getD "", req.description.getD "", req.deadline.getD 0,
          req.completed.getD false, na, if na != "" then nnm else "unassigned",
          cur.dateCreated⟩ : TaskDoc)
      else t) : TaskDoc).id = t.id := fun t => by split <;> rfl
  have h1 := @find?_map_upd TaskDoc TaskDoc.id
    (fun t => if t.id == tid then
      (⟨t.id, req.name.getD "", req.description.getD "", req.deadline.getD 0,
        req.completed.getD false, na, if na != "" then nnm else "unassigned",
        cur.dateCreated⟩ : TaskDoc)
    else t) hidT db.tasks hnt cur hcur
  rw [hcid] at h1
  rw [h1]
  simp only []
  rw [if_pos (show (cur.id == tid) = true by simp [hcid])]
  rw [hcid]

theorem createUser_commit_findUser {db : DB} {name email : String}
    {requested : List String} {now : Nat} {newId : String} {vts : List String}
    (hfu : ∀ u ∈ db.users, u.id ≠ newId) :
    findUser (createUserCommit db name email requested now newId vts) newId
      = some ⟨newId, name, email, vts, now⟩ := by
  unfold createUserCommit findUser
  simp only []
  by_cases hvE : vts.isEmpty = true
  · have hvnil : vts = [] := List.isEmpty_iff.mp hvE
    subst hvnil
    rw [if_neg (by simp)]
    rw [List.map_append]
    rw [find?_append_of_none ?hnone]
    case hnone =>
      intro x hx
      obtain ⟨u, hu, rfl⟩ := List.mem_map.mp hx
      have hid : ((if u.id == newId then
          ({ u with pendingTasks := ([] : List String) } : UserDoc) else u) : UserDoc).id
          = u.id := by split <;> rfl
      simp only [hid]
      simp [hfu u hu]
    rw [List.map_cons, List.map_nil]
    simp [List.find?_cons]
  · rw [if_pos (by simp [hvE])]
    rw [List.map_append, List.map_append]
    rw [find?_append_of_none ?hnone2]
    case hnone2 =>
      intro x hx
      obtain ⟨u1, hu1, rfl⟩ := List.mem_map.mp hx
      obtain ⟨u, hu, rfl⟩ := List.mem_map.mp hu1
      have hidp : ((if !(u.id == newId) && u.pendingTasks.any (fun x => vts.contains x) then
          ({ u with pendingTasks := u.pendingTasks.filter (fun x => !vts.contains x) } : UserDoc)
        else u) : UserDoc).id = u.id := by split <;> rfl
      have hids : ∀ w : UserDoc,
          ((if w.id == newId then ({ w with pendingTasks := vts } : UserDoc) else w)
            : UserDoc).id = w.id := fun w => by split <;> rfl
      rw [hids, hidp]
      simp [hfu u hu]
    rw [List.map_cons, List.map_nil, List.map_cons, List.map_nil]
    have hp : (if !((⟨newId, name, email, requested, now⟩ : UserDoc).id == newId)
        && (⟨newId, name, email, requested, now⟩ : UserDoc).pendingTasks.any
          (fun x => vts.contains x) then
        ({ (⟨newId, name, email, requested, now⟩ : UserDoc) with
          pendingTasks := (⟨newId, name, email, requested, now⟩ : UserDoc).pendingTasks.filter
            (fun x => !vts.contains x) } : UserDoc)
      else (⟨newId, name, email, requested, now⟩ : UserDoc))
        = (⟨newId, name, email, requested, now⟩ : UserDoc) := by
      rw [if_neg]
      rw [Bool.and_eq_true]
      rintro ⟨h1, -⟩
      simp at h1
    rw [hp]
    simp [List.find?_cons]

theorem replaceUser_commit_findTask_dropped {db : DB} {uid name email : String}
    {vts : List String} {origDate : Nat} {t : TaskDoc}
    (hnt : (db.tasks.map TaskDoc.id).Nodup) (htm : t ∈ db.tasks)
    (hass : t.assignedUser = uid) (hcomp : t.completed = false) (htni : t.id ∉ vts) :
    findTask (replaceUserCommit db uid name email vts origDate) t.id
      = some { t with assignedUser := "", assignedUserName := "unassigned" } := by
  unfold replaceUserCommit findTask
  simp only []
  have hidU : ∀ x : TaskDoc,
      ((if x.assignedUser == uid && !x.completed then
        { x with assignedUser := "", assignedUserName := "unassigned" }
      else x) : TaskDoc).id = x.id := fun x => by split <;> rfl
  have hgUt : (if t.assignedUser == uid && !t.completed then
      ({ t with assignedUser := "", assignedUserName := "unassigned" } : TaskDoc)
    else t) = ({ t with assignedUser := "", assignedUserName := "unassigned" } : TaskDoc) :=
    if_pos (by simp [hass, hcomp])
  by_cases hvE : vts.isEmpty = true
  · rw [if_neg (by simp [hvE])]
    have h1 := @find?_map_upd TaskDoc TaskDoc.id
      (fun x => if x.assignedUser == uid && !x.completed then
        { x with assignedUser := "", assignedUserName := "unassigned" }
      else x) hidU db.tasks hnt t htm
    rw [h1]
    simp only []
    rw [hgUt]
  · rw [if_pos (by simp [hvE])]
    have hidA : ∀ x : TaskDoc,
        ((if vts.contains x.id then
          { x with assignedUser := uid, assignedUserName := name }
        else x) : TaskDoc).id = x.id := fun x => by split <;> rfl
    have hn1 : ((db.tasks.map (fun x =>
        if x.assignedUser == uid && !x.completed then
          { x with assignedUser := "", assignedUserName := "unassigned" }
        else x)).map TaskDoc.id).Nodup := by
      rw [map_id_eq hidU]
      exact hnt
    have hmem1 : (if t.assignedUser == uid && !t.completed then
        ({ t with assignedUser := "", assignedUserName := "unassigned" } : TaskDoc)
      else t) ∈ db.tasks.map (fun x =>
        if x.assignedUser == uid && !x.completed then
          { x with assignedUser := "", assignedUserName := "unassigned" }
        else x) := List.mem_map.mpr ⟨t, htm, rfl⟩
    have h1 := @find?_map_upd TaskDoc TaskDoc.id
      (fun x => if vts.contains x.id then
        { x with assignedUser := uid, assignedUserName := name }
      else x) hidA
      (db.tasks.map (fun x =>
        if x.assignedUser == uid && !x.completed then
          { x with assignedUser := "", assignedUserName := "unassigned" }
        else x)) hn1
      (if t.assignedUser == uid && !t.completed then
        ({ t with assignedUser := "", assignedUserName := "unassigned" } : TaskDoc)
      else t) hmem1
    rw [hidU t] at h1
    rw [h1]
    simp only []
    rw [hgUt]
    simp only []
    rw [if_neg (show ¬(vts.contains
      ({ t with assignedUser := "", assignedUserName := "unassigned" } : TaskDoc).id)
        = true from by
      simp only []
      exact fun h => htni (contains_iff_mem.mp h))]

def annReplaceEmpty : ReplaceUserReq := ⟨some "Ann", some "ann@x.com", some [], some 99⟩

/-- The store after replacing Ann with an empty pending list. -/
def dbFix5 : DB := (replaceUser dbFix2 annId annReplaceEmpty none false).1

/-- C2 counterexample: replacing Ann with an empty pending list succeeds, and
task T1 — previously assigned to Ann and absent from the new filtered list —
does NOT keep its assignee fields: the route clears its assignee-id and
resets its assignee-name-cache. -/
theorem C2_replace_user_frame_counterexample :
    Reachable dbFix2 ∧
      (replaceUser dbFix2 annId annReplaceEmpty none false).2 = ⟨200, "User updated"⟩ ∧
      (findTask dbFix2 t1Id).map TaskDoc.assignedUser = some annId ∧
      t1Id ∉ annReplaceEmpty.pendingTasks.getD [] ∧
      (findTask dbFix5 t1Id).map TaskDoc.assignedUser = some "" ∧
      (findTask dbFix5 t1Id).map TaskDoc.assignedUserName = some "unassigned" :=
  ⟨reach_dbFix2, by decide, by decide, by decide, by decide, by decide⟩

/-- C2 amended: on a successful Replace User, every Task previously assigned
to this User with completed = false that is absent from the new filtered
pending list has its assignee-id cleared to the empty string and its
assignee-name-cache reset to "unassigned" (the route unassigns them; linkage
is not left unchanged). -/
theorem C2_replace_unassigns_dropped_tasks (db : DB) (uid : String)
    (req : ReplaceUserReq) (f : Option Nat) (dk : Bool)
    (hnt : (db.tasks.map TaskDoc.id).Nodup)
    (hst : (replaceUser db uid req f dk).2.status = 200) :
    ∀ t ∈ db.tasks, t.assignedUser = uid → t.completed = false →
      t.id ∉ req.pendingTasks.getD [] →
      findTask (replaceUser db uid req f dk).1 t.id
        = some { t with assignedUser := "", assignedUserName := "unassigned" } := by
  intro t htm hass hcomp hreq
  unfold replaceUser at hst ⊢
  cases hb : replaceUserBody db uid req f dk with
  | error e =>
    rw [hb] at hst
    cases e <;> simp [replaceUserCatch, serverError] at hst
  | ok r =>
    obtain ⟨db', resp⟩ := r
    rw [hb] at hst
    rcases replaceUserBody_ok hb with ⟨-, hne⟩ | ⟨user, vts, hfind, hflt, hcommit, hresp⟩
    · exact absurd hst hne
    · simp only []
      rw [hcommit]
      have htni : t.id ∉ vts := by
        intro hmem
        obtain ⟨t0, ht0, hid0, hreq0, -⟩ := (filterPendingTasks_ok_iff hflt t.id).mp hmem
        exact hreq hreq0
      exact replaceUser_commit_findTask_dropped hnt htm hass hcomp htni

theorem C2_replace_unassigns_dropped_tasks_witness :
    ((dbFix2.tasks.map TaskDoc.id).Nodup ∧
      (replaceUser dbFix2 annId annReplaceEmpty none false).2.status = 200) ∧
      (∀ t ∈ dbFix2.tasks, t.assignedUser = annId → t.completed = false →
        t.id ∉ annReplaceEmpty.pendingTasks.getD [] →
        findTask (replaceUser dbFix2 annId annReplaceEmpty none false).1 t.id
          = some { t with assignedUser := "", assignedUserName := "unassigned" }) :=
  ⟨⟨by decide, by decide⟩,
    C2_replace_unassigns_dropped_tasks dbFix2 annId annReplaceEmpty none false
      (by decide) (by decide)⟩

/-- C4: a successful Replace User or Replace Task never changes the stored
creation-timestamp of the replaced document, whatever the payload supplied
(including a payload carrying a different dateCreated value, which the
routes never read). -/
theorem C4_replace_preserves_dateCreated :
    (∀ (db : DB) uid req f dk, (db.users.map UserDoc.id).Nodup →
      (replaceUser db uid req f dk).2.status = 200 →
      (findUser (replaceUser db uid req f dk).1 uid).map UserDoc.dateCreated
        = (findUser db uid).map UserDoc.dateCreated) ∧
    (∀ (db : DB) tid req f, (db.tasks.map TaskDoc.id).Nodup →
      (replaceTask db tid req f).2.status = 200 →
      (findTask (replaceTask db tid req f).1 tid).map TaskDoc.dateCreated
        = (findTask db tid).map TaskDoc.dateCreated) := by
  constructor
  · intro db uid req f dk hnu hst
    unfold replaceUser at hst ⊢
    cases hb : replaceUserBody db uid req f dk with
    | error e =>
      rw [hb] at hst
    | ok r =>
      obtain ⟨db', resp⟩ := r
      rw [hb] at hst
      rcases replaceUserBody_ok hb with ⟨-, hne⟩ | ⟨user, vts, hfind, hflt, hcommit, hresp⟩
      · exact absurd hst hne
      · simp only []
        rw [hcommit]
        have hfu := findUserById_ok_findUser hfind
        obtain ⟨-, humem, huid⟩ := findUserById_ok_some hfind
        rw [replaceUser_commit_findUser hnu humem huid, hfu]
        rfl
  · intro db tid req f hnt hst
    unfold replaceTask at hst ⊢
    cases hb : replaceTaskBody db tid req f with
    | error e =>
      rw [hb] at hst
    | ok r =>
      obtain ⟨db', resp⟩ := r
      rw [hb] at hst
      rcases replaceTaskBody_ok hb with ⟨-, hne⟩ | ⟨-, hresp⟩ |
        ⟨cur, na, nnm, hfind, hresv, hcommit, hresp⟩
      · rw [show resp.status = 400 from hne] at hst
        cases hst
      · rw [show resp = ⟨404, "Task not found"⟩ from hresp] at hst
        cases hst
      · simp only []
        rw [hcommit]
        have hft := findTaskById_ok_findTask hfind
        obtain ⟨-, hcmem, hcid⟩ := findTaskById_ok_some hfind
        rw [replaceTask_commit_findTask hnt hcmem hcid, hft]
        rfl

theorem C4_replace_preserves_dateCreated_witness :
    (((dbFix2.users.map UserDoc.id).Nodup ∧
        (replaceUser dbFix2 annId annReplaceEmpty none false).2.status = 200) ∧
      (findUser (replaceUser dbFix2 annId annReplaceEmpty none false).1 annId).map
          UserDoc.dateCreated = (findUser dbFix2 annId).map UserDoc.dateCreated) ∧
      (((dbFix2.tasks.map TaskDoc.id).Nodup ∧
        (replaceTask dbFix2 t1Id ⟨some "T1b", some "d", some 10, some annId, some "zz",
          some true, some 12345⟩ none).2.status = 200) ∧
      (findTask (replaceTask dbFix2 t1Id ⟨some "T1b", some "d", some 10, some annId,
          some "zz", some true, some 12345⟩ none).1 t1Id).map TaskDoc.dateCreated
        = (findTask dbFix2 t1Id).map TaskDoc.dateCreated) :=
  ⟨⟨⟨by decide, by decide⟩,
    C4_replace_preserves_dateCreated.1 dbFix2 annId annReplaceEmpty none false
      (by decide) (by decide)⟩,
    ⟨⟨by decide, by decide⟩,
    C4_replace_preserves_dateCreated.2 dbFix2 t1Id ⟨some "T1b", some "d", some 10,
      some annId, some "zz", some true, some 12345⟩ none (by decide) (by decide)⟩⟩

theorem applyWrite_none (g : DB → DB) (t : Txn) :
    applyWrite none g t = .ok ⟨g t.cur, t.writes + 1⟩ := rfl

theorem resolveAssignee_downgrade {db : DB} {a : String} (hva : isValidId a = true)
    (hne : a ≠ "") (hnf : findUser db a = none) :
    resolveAssignee db a = .ok ("", "unassigned") := by
  unfold resolveAssignee findUserById
  rw [if_neg (show ¬(a == "") = true by simp [hne])]
  rw [if_pos hva, hnf]

theorem createTask_downgrade_eq {db : DB} {req : CreateTaskReq} {now : Nat}
    {newId : String} (hnm : strPresent req.name = true)
    (hdl : deadlinePresent req.deadline = true)
    (hres : resolveAssignee db (req.assignedUser.getD "") = .ok ("", "unassigned")) :
    createTask db req now newId none
      = (⟨db.users, db.tasks ++ [⟨newId, req.name.getD "", req.description.getD "",
          req.deadline.getD 0, req.completed.getD false, "", "unassigned", now⟩]⟩,
        ⟨201, "Task created"⟩) := by
  unfold createTask createTaskBody
  rw [if_neg (show ¬(!(strPresent req.name && deadlinePresent req.deadline)) = true by
    simp [hnm, hdl])]
  simp only []
  rw [hres]
  rfl

theorem replaceTask_downgrade_eq {db : DB} {tid : String} {req : ReplaceTaskReq}
    {cur : TaskDoc} (hvtid : isValidId tid = true)
    (hfind : findTask db tid = some cur) (hnm : strPresent req.name = true)
    (hdl : deadlinePresent req.deadline = true) (hcs : req.completed.isSome = true)
    (hres : resolveAssignee db (req.assignedUser.getD "") = .ok ("", "unassigned")) :
    replaceTask db tid req none
      = (replaceTaskCommit db tid req cur "" "unassigned", ⟨200, "Task updated"⟩) := by
  unfold replaceTask replaceTaskBody
  rw [show findTaskById db tid = .ok (some cur) from by
    unfold findTaskById; rw [if_pos hvtid, hfind]]
  simp only [bind, Except.bind, pure, Except.pure]
  rw [if_neg (show ¬(!(strPresent req.name && deadlinePresent req.deadline
    && req.completed.isSome)) = true by simp [hnm, hdl, hcs])]
  rw [hres]
  by_cases hp : (cur.assignedUser != "") = true
  · simp [applyWrite_none, replaceTaskCommit, Bool.and_self, hp]
  · simp [applyWrite_none, replaceTaskCommit, Bool.and_self, hp]

/-- A well-formed ObjectId that names no stored document in the fixtures. -/
def ghostId : String := "bbbbbbbbbbbbbbbbbbbbbbbb"

/-- A fresh task id for the C5 fixture calls. -/
def t3Id : String := "eeeeeeeeeeeeeeeeeeeeeeee"

/-- C5, counterexample to the "including a malformed identifier string"
part: a malformed assignee id makes the `$in`-free `findById` lookup raise a
CastError, which the POST route's catch turns into a 500, not a silent
downgrade; the state is unchanged but the operation does NOT succeed. -/
theorem C5_malformed_assignee_counterexample :
    createTask ⟨[], []⟩ ⟨some "T", none, some 9, some "x", none, some false⟩ 5 t3Id none
      = (⟨[], []⟩, ⟨500, "Server error"⟩) ∧
      replaceTask dbFix2 t1Id ⟨some "T1", none, some 9, some "x", none, some false, none⟩
        none = (dbFix2, ⟨404, "Task not found"⟩) ∧
      (500 : Nat) ≠ 201 :=
  ⟨by decide, by decide, by decide⟩

/-- C5 amended: a syntactically well-formed assignee id that names no
existing User is silently downgraded by both Create Task and Replace Task:
the operation succeeds and the stored Task has an empty assignee-id and
assignee-name-cache `"unassigned"`.  (A malformed assignee id instead
raises a CastError, see the counterexample.) -/
theorem C5_nonexistent_assignee_downgrade (db : DB) (a : String)
    (creq : CreateTaskReq) (rreq : ReplaceTaskReq) (now : Nat)
    (newId tid : String) (cur : TaskDoc)
    (hva : isValidId a = true) (hne : a ≠ "") (hnf : findUser db a = none)
    (hcnm : strPresent creq.name = true) (hcdl : deadlinePresent creq.deadline = true)
    (hca : creq.assignedUser = some a)
    (hvtid : isValidId tid = true) (hfind : findTask db tid = some cur)
    (hrnm : strPresent rreq.name = true) (hrdl : deadlinePresent rreq.deadline = true)
    (hrcs : rreq.completed.isSome = true) (hra : rreq.assignedUser = some a)
    (hnt : (db.tasks.map TaskDoc.id).Nodup) :
    createTask db creq now newId none
      = (⟨db.users, db.tasks ++ [⟨newId, creq.name.getD "", creq.description.getD "",
          creq.deadline.getD 0, creq.completed.getD false, "", "unassigned", now⟩]⟩,
        ⟨201, "Task created"⟩) ∧
      (replaceTask db tid rreq none).2 = ⟨200, "Task updated"⟩ ∧
      (∃ t, findTask (replaceTask db tid rreq none).1 tid = some t ∧
        t.assignedUser = "" ∧ t.assignedUserName = "unassigned") := by
  have hres : resolveAssignee db a = .ok ("", "unassigned") :=
    resolveAssignee_downgrade hva hne hnf
  have hresc : resolveAssignee db (creq.assignedUser.getD "") = .ok ("", "unassigned") := by
    rw [hca]; exact hres
  have hresr : resolveAssignee db (rreq.assignedUser.getD "") = .ok ("", "unassigned") := by
    rw [hra]; exact hres
  obtain ⟨hcur, hcid⟩ := findTask_some hfind
  have heq := replaceTask_downgrade_eq hvtid hfind hrnm hrdl hrcs hresr
  refine ⟨createTask_downgrade_eq hcnm hcdl hresc, ?_, ?_⟩
  · rw [heq]
  · rw [heq]
    refine ⟨⟨tid, rreq.name.getD "", rreq.description.getD "", rreq.deadline.getD 0,
      rreq.completed.getD false, "",
      if ("" : String) != "" then "unassigned" else "unassigned", cur.dateCreated⟩,
      replaceTask_commit_findTask hnt hcur hcid, rfl, ?_⟩
    simp

theorem C5_nonexistent_assignee_downgrade_witness :
    (isValidId ghostId = true ∧ findUser dbFix2 ghostId = none) ∧
      (createTask dbFix2 ⟨some "T3", none, some 9, some ghostId, none, some false⟩ 8 t3Id
          none
        = (⟨dbFix2.users, dbFix2.tasks ++ [⟨t3Id, "T3", "", 9, false, "", "unassigned", 8⟩]⟩,
          ⟨201, "Task created"⟩) ∧
      (replaceTask dbFix2 t1Id
          ⟨some "T1", none, some 9, some ghostId, none, some false, none⟩ none).2
        = ⟨200, "Task updated"⟩ ∧
      (∃ t, findTask (replaceTask dbFix2 t1Id
          ⟨some "T1", none, some 9, some ghostId, none, some false, none⟩ none).1 t1Id
            = some t ∧
        t.assignedUser = "" ∧ t.assignedUserName = "unassigned")) :=
  ⟨⟨by decide, by decide⟩,
    C5_nonexistent_assignee_downgrade dbFix2 ghostId
      ⟨some "T3", none, some 9, some ghostId, none, some false⟩
      ⟨some "T1", none, some 9, some ghostId, none, some false, none⟩ 8 t3Id t1Id
      ⟨t1Id, "T1", "", 9, false, annId, "Ann", 6⟩
      (by decide) (by decide) (by decide) (by decide) (by decide) rfl
      (by decide) (by decide) (by decide) (by decide) (by decide) rfl
      (by decide)⟩

/-- Forward evaluation of `POST /api/users` on the fault-free schedule: with
the required fields present, no duplicate email and a well-formed pending
list, the route commits and answers 201. -/
theorem createUser_ok_eq {db : DB} {req : CreateUserReq} {now : Nat} {newId : String}
    {vts : List String}
    (hnm : strPresent req.name = true) (hem : strPresent req.email = true)
    (hdup : (db.users.find? (fun u => u.email == req.email.getD "")).isSome = false)
    (hflt : filterPendingTasks db (req.pendingTasks.getD []) = .ok vts) :
    createUser db req now newId none false
      = (createUserCommit db (req.name.getD "") (req.email.getD "")
          (req.pendingTasks.getD []) now newId vts, ⟨201, "User created"⟩) := by
  unfold createUser createUserBody
  simp only [bind, Except.bind, pure, Except.pure]
  rw [if_neg (show ¬(!(strPresent req.name && strPresent req.email)) = true by
    simp [hnm, hem])]
  rw [if_neg (show ¬((db.users.find? (fun u => u.email == req.email.getD "")).isSome
    = true) by simp [hdup])]
  simp only [Bool.false_eq_true, if_false, applyWrite_none]
  rw [show filterPendingTasks ⟨db.users ++ [⟨newId, req.name.getD "", req.email.getD "",
        req.pendingTasks.getD [], now⟩], db.tasks⟩ (req.pendingTasks.getD [])
      = Except.ok vts from by
    rw [filterPendingTasks_tasks_eq (db.users ++ [(⟨newId, req.name.getD "",
      req.email.getD "", req.pendingTasks.getD [], now⟩ : UserDoc)]) db.users db.tasks
      (req.pendingTasks.getD [])]
    exact hflt]
  by_cases hvE : vts.isEmpty = true
  · simp [createUserCommit, hvE]
  · simp [createUserCommit, hvE]

/-- Forward evaluation of `PUT /api/users/:id` on the fault-free schedule. -/
theorem replaceUser_ok_eq {db : DB} {uid : String} {req : ReplaceUserReq} {user : UserDoc}
    {vts : List String}
    (hvu : isValidId uid = true) (hfindu : findUser db uid = some user)
    (hnm : strPresent req.name = true) (hem : strPresent req.email = true)
    (hps : req.pendingTasks.isSome = true)
    (hdup : (db.users.find? (fun u => u.email == req.email.getD ""
      && !(u.id == uid))).isSome = false)
    (hflt : filterPendingTasks db (req.pendingTasks.getD []) = .ok vts) :
    replaceUser db uid req none false
      = (replaceUserCommit db uid (req.name.getD "") (req.email.getD "") vts
          user.dateCreated, ⟨200, "User updated"⟩) := by
  unfold replaceUser replaceUserBody
  rw [show findUserById db uid = .ok (some user) from by
    unfold findUserById; rw [if_pos hvu, hfindu]]
  simp only [bind, Except.bind, pure, Except.pure]
  rw [if_neg (show ¬(!(strPresent req.name && strPresent req.email
    && req.pendingTasks.isSome)) = true by simp [hnm, hem, hps])]
  rw [if_neg (show ¬((db.users.find? (fun u => u.email == req.email.getD ""
    && !(u.id == uid))).isSome = true) by simp [hdup])]
  simp only [Bool.false_eq_true, if_false, applyWrite_none]
  rw [show filterPendingTasks ⟨db.users, db.tasks.map (fun t =>
      if t.assignedUser == uid && !t.completed then
        { t with assignedUser := "", assignedUserName := "unassigned" }
      else t)⟩ (req.pendingTasks.getD []) = Except.ok vts from by
    rw [filterPendingTasks_unassign db.users db uid (req.pendingTasks.getD [])]
    exact hflt]
  by_cases hvE : vts.isEmpty = true
  · simp [replaceUserCommit, hvE]
  · simp [replaceUserCommit, hvE]

/-- A second fresh user id for the fixtures. -/
def bobId : String := "ffffffffffffffffffffffff"

/-- Create-user request supplying an open task, a completed task and a
non-existent (but well-formed) task id. -/
def c6CReq : CreateUserReq := ⟨some "Bob", some "bob@x.com", some [t1Id, t2Id, ghostId], none⟩

/-- Replace-user request supplying the same mixed pending list. -/
def c6RReq : ReplaceUserReq := ⟨some "Ann", some "ann@x.com", some [t1Id, t2Id, ghostId], none⟩

/-- C6, counterexample to the "malformed ids are dropped without error"
part: a malformed member of the supplied pending list makes the `$in` query
raise a CastError, so Create User answers 500 and Replace User answers 404
(its catch classifies the CastError as not-found); neither succeeds, though
the state is unchanged. -/
theorem C6_malformed_pending_counterexample :
    createUser ⟨[], []⟩ ⟨some "A", some "a@x.com", some ["x"], none⟩ 5 annId none false
      = (⟨[], []⟩, ⟨500, "Server error"⟩) ∧
      replaceUser dbFix2 annId ⟨some "Ann", some "ann@x.com", some ["x"], none⟩ none false
        = (dbFix2, ⟨404, "User not found"⟩) ∧
      (500 : Nat) ≠ 201 :=
  ⟨by decide, by decide, by decide⟩

/-- C6 amended: when every supplied pending id is syntactically well-formed,
Create User and Replace User succeed and the stored pending set keeps a
supplied id exactly when a task with that id exists and is not completed;
non-existent and completed ids are silently dropped.  (A malformed id
instead aborts the operation, see the counterexample.) -/
theorem C6_pending_filter (db : DB) (creq : CreateUserReq) (uid : String)
    (rreq : ReplaceUserReq) (user : UserDoc) (now : Nat) (newId : String)
    (cvts rvts : List String)
    (hcnm : strPresent creq.name = true) (hcem : strPresent creq.email = true)
    (hcdup : (db.users.find? (fun u => u.email == creq.email.getD "")).isSome = false)
    (hcflt : filterPendingTasks db (creq.pendingTasks.getD []) = .ok cvts)
    (hfu : ∀ u ∈ db.users, u.id ≠ newId)
    (hvu : isValidId uid = true) (hfindu : findUser db uid = some user)
    (hrnm : strPresent rreq.name = true) (hrem : strPresent rreq.email = true)
    (hrps : rreq.pendingTasks.isSome = true)
    (hrdup : (db.users.find? (fun u => u.email == rreq.email.getD ""
      && !(u.id == uid))).isSome = false)
    (hrflt : filterPendingTasks db (rreq.pendingTasks.getD []) = .ok rvts)
    (hnu : (db.users.map UserDoc.id).Nodup) :
    ((createUser db creq now newId none false).2 = ⟨201, "User created"⟩ ∧
      ∃ u, findUser (createUser db creq now newId none false).1 newId = some u ∧
        ∀ x, x ∈ u.pendingTasks ↔
          (x ∈ creq.pendingTasks.getD [] ∧
            ∃ t ∈ db.tasks, t.id = x ∧ t.completed = false)) ∧
    ((replaceUser db uid rreq none false).2 = ⟨200, "User updated"⟩ ∧
      ∃ u, findUser (replaceUser db uid rreq none false).1 uid = some u ∧
        ∀ x, x ∈ u.pendingTasks ↔
          (x ∈ rreq.pendingTasks.getD [] ∧
            ∃ t ∈ db.tasks, t.id = x ∧ t.completed = false)) := by
  have hc := @createUser_ok_eq db creq now newId cvts hcnm hcem hcdup hcflt
  have hr := replaceUser_ok_eq hvu hfindu hrnm hrem hrps hrdup hrflt
  obtain ⟨huser, hiduser⟩ := findUser_some hfindu
  refine ⟨⟨by rw [hc], ?_⟩, ⟨by rw [hr], ?_⟩⟩
  · rw [hc]
    refine ⟨⟨newId, creq.name.getD "", creq.email.getD "", cvts, now⟩,
      createUser_commit_findUser hfu, ?_⟩
    intro x
    have h1 := filterPendingTasks_ok_iff hcflt x
    show x ∈ cvts ↔ _
    rw [h1]
    constructor
    · rintro ⟨t, ht, htid, hxr, htc⟩
      exact ⟨hxr, t, ht, htid, htc⟩
    · rintro ⟨hxr, t, ht, htid, htc⟩
      exact ⟨t, ht, htid, hxr, htc⟩
  · rw [hr]
    refine ⟨⟨uid, rreq.name.getD "", rreq.email.getD "", rvts, user.dateCreated⟩,
      replaceUser_commit_findUser hnu huser hiduser, ?_⟩
    intro x
    have h1 := filterPendingTasks_ok_iff hrflt x
    show x ∈ rvts ↔ _
    rw [h1]
    constructor
    · rintro ⟨t, ht, htid, hxr, htc⟩
      exact ⟨hxr, t, ht, htid, htc⟩
    · rintro ⟨hxr, t, ht, htid, htc⟩
      exact ⟨t, ht, htid, hxr, htc⟩

theorem C6_pending_filter_witness :
    filterPendingTasks dbFix3 [t1Id, t2Id, ghostId] = .ok [t1Id] ∧
    (((createUser dbFix3 c6CReq 9 bobId none false).2 = ⟨201, "User created"⟩ ∧
      ∃ u, findUser (createUser dbFix3 c6CReq 9 bobId none false).1 bobId = some u ∧
        ∀ x, x ∈ u.pendingTasks ↔
          (x ∈ [t1Id, t2Id, ghostId] ∧
            ∃ t ∈ dbFix3.tasks, t.id = x ∧ t.completed = false)) ∧
    ((replaceUser dbFix3 annId c6RReq none false).2 = ⟨200, "User updated"⟩ ∧
      ∃ u, findUser (replaceUser dbFix3 annId c6RReq none false).1 annId = some u ∧
        ∀ x, x ∈ u.pendingTasks ↔
          (x ∈ [t1Id, t2Id, ghostId] ∧
            ∃ t ∈ dbFix3.tasks, t.id = x ∧ t.completed = false))) :=
  ⟨rfl,
    C6_pending_filter dbFix3 c6CReq annId c6RReq ⟨annId, "Ann", "ann@x.com", [t1Id], 5⟩
      9 bobId [t1Id] [t1Id]
      (by decide) (by decide) (by decide) rfl (by decide) (by decide) (by decide)
      (by decide) (by decide) (by decide) (by decide) rfl (by decide)⟩

/-- C7, counterexample: on `POST /api/users` the proactive pre-check answers
400 "Email already exists", but a reactive duplicate-key error raised by the
unique index at write time falls through to the route's generic catch and
answers 500 — the two detection paths do NOT map to the same classification
for Create User. -/
theorem C7_dup_email_counterexample :
    createUser dbFix1 ⟨some "B", some "ann@x.com", some [], none⟩ 9 bobId none false
      = (dbFix1, ⟨400, "Email already exists"⟩) ∧
      createUser dbFix1 ⟨some "B", some "b@x.com", some [], none⟩ 9 bobId none true
        = (dbFix1, ⟨500, "Server error"⟩) ∧
      (⟨400, "Email already exists"⟩ : Resp) ≠ ⟨500, "Server error"⟩ :=
  ⟨by decide, by decide, by decide⟩

/-- C7 amended: on `PUT /api/users/:id` both detection paths (proactive
pre-check and reactive duplicate-key error) produce the same 400
"Email already exists" with the state unchanged; on `POST /api/users` only
the proactive pre-check produces that 400, while the reactive path produces
the generic 500, because this route's catch has no duplicate-key case. -/
theorem C7_dup_email_classification (db : DB) (uid : String) (user : UserDoc)
    (now : Nat) (newId : String) (f : Option Nat) (dk : Bool)
    (req1 req2 : ReplaceUserReq) (creq1 creq2 : CreateUserReq) (vts : List String)
    (hvu : isValidId uid = true) (hfindu : findUser db uid = some user)
    (h1nm : strPresent req1.name = true) (h1em : strPresent req1.email = true)
    (h1ps : req1.pendingTasks.isSome = true)
    (h1dup : (db.users.find? (fun u => u.email == req1.email.getD ""
      && !(u.id == uid))).isSome = true)
    (h2nm : strPresent req2.name = true) (h2em : strPresent req2.email = true)
    (h2ps : req2.pendingTasks.isSome = true)
    (h2dup : (db.users.find? (fun u => u.email == req2.email.getD ""
      && !(u.id == uid))).isSome = false)
    (h2flt : filterPendingTasks db (req2.pendingTasks.getD []) = .ok vts)
    (h3nm : strPresent creq1.name = true) (h3em : strPresent creq1.email = true)
    (h3dup : (db.users.find? (fun u => u.email == creq1.email.getD "")).isSome = true)
    (h4nm : strPresent creq2.name = true) (h4em : strPresent creq2.email = true)
    (h4dup : (db.users.find? (fun u => u.email == creq2.email.getD "")).isSome = false) :
    replaceUser db uid req1 f dk = (db, ⟨400, "Email already exists"⟩) ∧
      replaceUser db uid req2 none true = (db, ⟨400, "Email already exists"⟩) ∧
      createUser db creq1 now newId f dk = (db, ⟨400, "Email already exists"⟩) ∧
      createUser db creq2 now newId f true = (db, ⟨500, "Server error"⟩) := by
  have hfid : findUserById db uid = .ok (some user) := by
    unfold findUserById; rw [if_pos hvu, hfindu]
  refine ⟨?_, ?_, ?_, ?_⟩
  · unfold replaceUser replaceUserBody
    rw [hfid]
    simp only [bind, Except.bind, pure, Except.pure]
    rw [if_neg (show ¬(!(strPresent req1.name && strPresent req1.email
      && req1.pendingTasks.isSome)) = true by simp [h1nm, h1em, h1ps])]
    rw [if_pos h1dup]
  · unfold replaceUser replaceUserBody
    rw [hfid]
    simp only [bind, Except.bind, pure, Except.pure]
    rw [if_neg (show ¬(!(strPresent req2.name && strPresent req2.email
      && req2.pendingTasks.isSome)) = true by simp [h2nm, h2em, h2ps])]
    rw [if_neg (show ¬((db.users.find? (fun u => u.email == req2.email.getD ""
      && !(u.id == uid))).isSome = true) by simp [h2dup])]
    simp only [applyWrite_none]
    rw [show filterPendingTasks ⟨db.users, db.tasks.map (fun t =>
        if t.assignedUser == uid && !t.completed then
          { t with assignedUser := "", assignedUserName := "unassigned" }
        else t)⟩ (req2.pendingTasks.getD []) = Except.ok vts from by
      rw [filterPendingTasks_unassign db.users db uid (req2.pendingTasks.getD [])]
      exact h2flt]
    by_cases hvE : vts.isEmpty = true
    · simp [hvE, replaceUserCatch, throw, throwThe]
    · simp [hvE, replaceUserCatch, throw, throwThe]
  · unfold createUser createUserBody
    simp only [bind, Except.bind, pure, Except.pure]
    rw [if_neg (show ¬(!(strPresent creq1.name && strPresent creq1.email)) = true by
      simp [h3nm, h3em])]
    rw [if_pos h3dup]
  · unfold createUser createUserBody
    simp only [bind, Except.bind, pure, Except.pure]
    rw [if_neg (show ¬(!(strPresent creq2.name && strPresent creq2.email)) = true by
      simp [h4nm, h4em])]
    rw [if_neg (show ¬((db.users.find? (fun u => u.email == creq2.email.getD "")).isSome
      = true) by simp [h4dup])]
    simp [serverError, throw, throwThe]

/-- Fixture: Ann plus a second user Bob (two distinct stored emails). -/
def dbFix6 : DB :=
  (createUser dbFix1 ⟨some "Bob", some "bob@x.com", some [], none⟩ 9 bobId none false).1

theorem C7_dup_email_classification_witness :
    (dbFix6.users.find? (fun u => u.email == "bob@x.com" && !(u.id == annId))).isSome
        = true ∧
      (replaceUser dbFix6 annId ⟨some "Ann", some "bob@x.com", some [], none⟩ none false
        = (dbFix6, ⟨400, "Email already exists"⟩) ∧
      replaceUser dbFix6 annId ⟨some "Ann", some "ann@x.com", some [], none⟩ none true
        = (dbFix6, ⟨400, "Email already exists"⟩) ∧
      createUser dbFix6 ⟨some "C", some "ann@x.com", some [], none⟩ 11 t3Id none false
        = (dbFix6, ⟨400, "Email already exists"⟩) ∧
      createUser dbFix6 ⟨some "C", some "c@x.com", some [], none⟩ 11 t3Id none true
        = (dbFix6, ⟨500, "Server error"⟩)) :=
  ⟨by decide,
    C7_dup_email_classification dbFix6 annId ⟨annId, "Ann", "ann@x.com", [], 5⟩ 11 t3Id
      none false
      ⟨some "Ann", some "bob@x.com", some [], none⟩
      ⟨some "Ann", some "ann@x.com", some [], none⟩
      ⟨some "C", some "ann@x.com", some [], none⟩
      ⟨some "C", some "c@x.com", some [], none⟩ []
      (by decide) (by decide) (by decide) (by decide) (by decide) (by decide)
      (by decide) (by decide) (by decide) (by decide) rfl
      (by decide) (by decide) (by decide) (by decide) (by decide) (by decide)⟩
